

import Mathlib

/-!
Verification of the openclaw-QQ gateway against its specification.

Strings of the TypeScript source are modelled as `List Char`; JavaScript
`Map`s as association lists with unique keys; wall-clock milliseconds as
`Nat`; asynchronous callbacks as oracles (functions from the attempt index
to the outcome the callback would produce).  Each embedded definition keeps
the name of the source function it models.
-/

/-- Strings of the source are modelled as lists of characters. -/

abbrev Str := List Char

/-- Conversion from a Lean string literal to the model type. -/

def s2l (s : String) : Str := s.data

/-! ## JavaScript Map model (association list, first binding wins) -/

/-- `Map.get`: first binding for the key, if any. -/

def mapGet {α : Type} : List (Str × α) → Str → Option α
  | [], _ => none
  | (k', v) :: rest, k => if k' = k then some v else mapGet rest k

/-- `Map.delete`: drop the first binding for the key. -/

def mapDelete {α : Type} : List (Str × α) → Str → List (Str × α)
  | [], _ => []
  | (k', v) :: rest, k => if k' = k then rest else (k', v) :: mapDelete rest k

/-- `Map.has`. -/

def mapContains {α : Type} (m : List (Str × α)) (k : Str) : Bool :=
  (mapGet m k).isSome

/-- `Map.set`: overwrite the first binding or append a new one. -/

def mapSet {α : Type} : List (Str × α) → Str → α → List (Str × α)
  | [], k, v => [(k, v)]
  | (k', v') :: rest, k, v =>
    if k' = k then (k, v) :: rest else (k', v') :: mapSet rest k v

/-- Keys of a map are pairwise distinct (the JS `Map` invariant). -/

abbrev mapKeysNodup {α : Type} (m : List (Str × α)) : Prop :=
  (m.map Prod.fst).Nodup

/-! ## Character and string utilities shared by the embeddings

JavaScript whitespace (`\s`, `String.trim`) is modelled by its members that
can occur in the gateway's ASCII route/config strings plus NBSP;
`toLowerCase` by its ASCII action, which is total on the A-Z/a-z data the
source manipulates.
-/

/-- JS whitespace characters (space, tab, LF, CR, VT, FF, NBSP by code
point). -/

def isSpaceChar (c : Char) : Bool :=
  c.toNat = 32 || c.toNat = 9 || c.toNat = 10 || c.toNat = 13 ||
  c.toNat = 11 || c.toNat = 12 || c.toNat = 160

/-- ASCII decimal digit (`\d`). -/

def isDigitChar (c : Char) : Bool :=
  48 ≤ c.toNat && c.toNat ≤ 57

/-- `toLowerCase` on one character (ASCII range). -/

def toLowerChar (c : Char) : Char :=
  if 65 ≤ c.toNat ∧ c.toNat ≤ 90 then Char.ofNat (c.toNat + 32) else c

/-- `toLowerCase`. -/

def toLower (l : Str) : Str := l.map toLowerChar

/-- `String.trim`: drop whitespace at both ends. -/

def trimStr (l : Str) : Str :=
  ((l.dropWhile isSpaceChar).reverse.dropWhile isSpaceChar).reverse

/-- Does `hay` start with `needle`? -/

def startsWithStr : Str → Str → Bool
  | _, [] => true
  | [], _ :: _ => false
  | h :: hs, n :: ns => h = n && startsWithStr hs ns

/-- `String.includes`. -/

def containsStr : Str → Str → Bool
  | [], needle => needle = []
  | hay@(_ :: rest), needle => startsWithStr hay needle || containsStr rest needle

/-! ## Route runtime context (source: core/runtime-context, `part_007`)

`RouteInFlightState` carries `{route, dispatchId, msgId, startedAt,
abortController}`; the abort controller is modelled by its `aborted` bit.
-/

structure RouteInFlightState where
  route : Str
  dispatchId : Str
  msgId : Str
  startedAt : Nat
  aborted : Bool
deriving DecidableEq, Repr

/-- The module-scoped `routeInflightMap`. -/

abbrev InFlightMap := List (Str × RouteInFlightState)

/-- `clearRouteInFlight(route, dispatchId?)`.

Source:
`if (!dispatchId) return routeInflightMap.delete(route);`
`const current = routeInflightMap.get(route);`
`if (!current || current.dispatchId !== dispatchId) return false;`
`routeInflightMap.delete(route); return true;`

A supplied empty string is falsy in JS, hence takes the unconditional
branch, exactly as an omitted argument does. -/

def clearRouteInFlight (m : InFlightMap) (route : Str) (dispatchId : Option Str) :
    Bool × InFlightMap :=
  match dispatchId with
  | none => (mapContains m route, mapDelete m route)
  | some d =>
    if d = [] then (mapContains m route, mapDelete m route)
    else
      match mapGet m route with
      | none => (false, m)
      | some current =>
        if current.dispatchId = d then (true, mapDelete m route) else (false, m)

/-- `beginRouteInFlight` installs a fresh in-flight entry and returns the
previous one, if any. -/

def beginRouteInFlight (m : InFlightMap) (route msgId dispatchId : Str)
    (now : Nat) : (RouteInFlightState × Option RouteInFlightState) × InFlightMap :=
  let current : RouteInFlightState :=
    { route := route, dispatchId := dispatchId, msgId := msgId,
      startedAt := now, aborted := false }
  ((current, mapGet m route), mapSet m route current)

/-- `getRouteInFlight`. -/

def getRouteInFlight (m : InFlightMap) (route : Str) : Option RouteInFlightState :=
  mapGet m route

/-! ## Delivery queue (source: `delivery.ts`)

`sendWithRetry` is a per-call retry loop.  The awaited collaborators of one
attempt — the preflight callback, `ensureReady`, and the send function
`fn` — are modelled by an oracle `steps : Nat → AttemptStep α` giving, per
attempt index, either the value produced or the message of the error
thrown.  The module-scoped `recentMediaSendAttempts` map is threaded
explicitly; `Date.now()` is a parameter held fixed across the call.
-/

/-- Outcomes of the awaited steps of one attempt of `sendWithRetry`. -/

structure AttemptStep (α : Type) where
  preflightErr : Option Str
  ensureErr : Option Str
  fnOutcome : Except Str α

/-- The control-flow-relevant fields of `SendMeta` (the remaining fields
only feed log lines). -/

structure SendMetaM where
  action : Str
  mediaDedupKey : Option Str

/-- Observable events of one `sendWithRetry` call. -/

inductive SendEvent
  | preflightRun (i : Nat)
  | attemptLogged (i : Nat)
  | fnRun (i : Nat)
  | backoffSlept (i : Nat)
deriving DecidableEq, Repr

/-- Result of one `sendWithRetry` call. -/

inductive SendResult (α : Type)
  | ok (v : α)
  | dedupSuppressed
  | thrown (msg : Str) (retriableFlag : Bool)
deriving DecidableEq, Repr

/-- `MEDIA_DEDUP_WINDOW_MS`. -/

def MEDIA_DEDUP_WINDOW_MS : Nat := 45000

/-- `isRetriableSendError`. -/

def isRetriableSendError (errMsg : Str) : Bool :=
  let msg := toLower errMsg
  if msg = [] then false
  else
    containsStr msg (s2l "websocket not open") ||
    containsStr msg (s2l "request timeout") ||
    containsStr msg (s2l "econnreset") ||
    containsStr msg (s2l "socket hang up") ||
    containsStr msg (s2l "broken pipe") ||
    containsStr msg (s2l "temporarily unavailable") ||
    containsStr msg (s2l "timed out")

/-- `shouldSuppressMediaRetry`. -/

def shouldSuppressMediaRetry (recent : List (Str × Nat)) (key : Str) (now : Nat) : Bool :=
  match mapGet recent key with
  | some ts => now - ts ≤ MEDIA_DEDUP_WINDOW_MS
  | none => false

/-- `markMediaSendAttempt` (set, then prune stale entries past 500). -/

def markMediaSendAttempt (recent : List (Str × Nat)) (key : Str) (now : Nat) :
    List (Str × Nat) :=
  let m := mapSet recent key now
  if 500 < m.length then m.filter (fun kv => now - kv.2 ≤ MEDIA_DEDUP_WINDOW_MS * 3) else m

/-- The `for (let i = 1; i <= max; i++)` body of `sendWithRetry`, with the
fuel argument bounding the remaining iterations (`max - i + 1` at entry). -/

def sendWithRetryLoop {α : Type} (meta : SendMetaM) (steps : Nat → AttemptStep α)
    (now maxA : Nat) :
    Nat → Nat → List (Str × Nat) → List SendEvent → Str →
      SendResult α × List SendEvent
  | 0, _, _, trace, lastErr =>
    (.thrown lastErr (isRetriableSendError lastErr), trace)
  | fuel + 1, i, recent, trace, _ =>
    let catchPath : Str → List (Str × Nat) → List SendEvent →
        SendResult α × List SendEvent :=
      fun err recent' trace' =>
        if i < maxA ∧ isRetriableSendError err = true then
          sendWithRetryLoop meta steps now maxA fuel (i + 1) recent'
            (trace' ++ [.backoffSlept i]) err
        else
          (.thrown err (isRetriableSendError err), trace')
    let runRest : List (Str × Nat) → SendResult α × List SendEvent :=
      fun recent' =>
        let trace1 := trace ++ [.preflightRun i]
        match (steps i).preflightErr with
        | some m => catchPath m recent' trace1
        | none =>
          match (steps i).ensureErr with
          | some m => catchPath m recent' trace1
          | none =>
            let trace2 := trace1 ++ [.attemptLogged i, .fnRun i]
            match (steps i).fnOutcome with
            | .ok v => (.ok v, trace2)
            | .error m => catchPath m recent' trace2
    if meta.action = s2l "send_media" ∧ meta.mediaDedupKey ≠ none then
      let key := meta.mediaDedupKey.getD []
      if 1 < i ∧ shouldSuppressMediaRetry recent key now = true then
        (.dedupSuppressed, trace)
      else runRest (if i = 1 then markMediaSendAttempt recent key now else recent)
    else runRest recent

/-- `sendWithRetry(config, meta, fn)`: `max = Math.max(1,
config.sendQueueMaxRetries ?? 3)`, loop from attempt 1. -/

def sendWithRetry {α : Type} (sendQueueMaxRetries : Nat) (meta : SendMetaM)
    (steps : Nat → AttemptStep α) (now : Nat) (recent : List (Str × Nat)) :
    SendResult α × List SendEvent :=
  let maxA := Nat.max 1 sendQueueMaxRetries
  sendWithRetryLoop meta steps now maxA maxA 1 recent [] []

/-! ## Inbound media materializer (source: `part_008`)

`fetchInboundHttpBuffer` is a `while (attempt <= retries)` loop around
`fetch`.  The network is modelled by an oracle giving, per attempt number
(1-based), the outcome of that `fetch` call; the result records how many
`fetch` calls were performed.
-/

/-- One `fetch` outcome: a response (with `res.ok`, `res.status` and the
body length) or a thrown exception. -/

inductive FetchOutcome
  | resp (ok : Bool) (status : Nat) (bodyLen : Nat)
  | exn (msg : Str)

/-- Result of `fetchInboundHttpBuffer`, plus the observable count of
`fetch` invocations. -/

structure FetchResult where
  ok : Bool
  bodyLen : Option Nat
  status : Option Nat
  retryCount : Nat
  errorCode : Option Str
  fetchCalls : Nat
deriving DecidableEq, Repr

/-- Loop body of `fetchInboundHttpBuffer`.  `attempt` is the value of the
source's counter at the loop head; fuel bounds the remaining iterations. -/

def fetchInboundHttpBufferGo (oracle : Nat → FetchOutcome) (retries : Nat) :
    Nat → Nat → FetchResult
  | 0, attempt =>
    { ok := false, bodyLen := none, status := none, retryCount := retries,
      errorCode := some (s2l "materialize_http_failed"), fetchCalls := attempt }
  | fuel + 1, attempt =>
    if attempt ≤ retries then
      let a := attempt + 1
      match oracle a with
      | .resp ok status bodyLen =>
        if ok = false then
          if a ≤ retries then fetchInboundHttpBufferGo oracle retries fuel a
          else
            { ok := false, bodyLen := none, status := some status,
              retryCount := a - 1,
              errorCode := some (s2l "materialize_http_failed"), fetchCalls := a }
        else if bodyLen = 0 then
          { ok := false, bodyLen := none, status := none, retryCount := a - 1,
            errorCode := some (s2l "materialize_empty_payload"), fetchCalls := a }
        else
          { ok := true, bodyLen := some bodyLen, status := some status,
            retryCount := a - 1, errorCode := none, fetchCalls := a }
      | .exn _ =>
        if a ≤ retries then fetchInboundHttpBufferGo oracle retries fuel a
        else
          { ok := false, bodyLen := none, status := none, retryCount := a - 1,
            errorCode := some (s2l "materialize_http_failed"), fetchCalls := a }
    else
      { ok := false, bodyLen := none, status := none, retryCount := retries,
        errorCode := some (s2l "materialize_http_failed"), fetchCalls := attempt }

/-- `fetchInboundHttpBuffer(url, timeoutMs, retries)` (the timeout only
parameterises each single `fetch`, which the oracle already captures). -/

def fetchInboundHttpBuffer (oracle : Nat → FetchOutcome) (retries : Nat) :
    FetchResult :=
  fetchInboundHttpBufferGo oracle retries (retries + 1) 0

/-- The fields of a `MaterializeResult` relevant to the http branch. -/

structure MaterializeResult where
  url : Str
  materialized : Bool
  errorCode : Option Str
  httpStatus : Option Nat
  retryCount : Option Nat
deriving DecidableEq, Repr

/-- The `https?://` branch of `materializeInboundMediaDetailed`:
`retries = Math.max(0, Number(cfg?.inboundMediaHttpRetries ?? 2))`; on a
failed or empty fetch, push the failure record; otherwise hand the buffer
to the rest of the pipeline. -/

def materializeInboundHttpStep (oracle : Nat → FetchOutcome)
    (inboundMediaHttpRetries : Option Nat) (src : Str) :
    Option MaterializeResult × Option Nat :=
  let retries := Nat.max 0 (inboundMediaHttpRetries.getD 2)
  let fetched := fetchInboundHttpBuffer oracle retries
  if fetched.ok = false ∨ fetched.bodyLen = none then
    (some { url := src, materialized := false,
            errorCode := some (fetched.errorCode.getD (s2l "http_fetch_error")),
            httpStatus := fetched.status,
            retryCount := some fetched.retryCount }, none)
  else (none, fetched.bodyLen)

/-! ## Task units (source: `task-units.ts`)

`enqueueRouteTask` recomputes the task key, short-circuits on a completed
record younger than 24 h, and otherwise persists a `queued` line and
schedules the body.  The body (scheduled through `scheduleByRoute` and run
asynchronously) is modelled by `taskBodyLoop`, sequenced after the
synchronous part; the `sha256`-based digest inside `makeTaskKey` is a
parameter (`digest`), which is all the claims depend on.  The module-scoped
`completedTaskState` map is threaded explicitly.
-/

inductive TaskStatus
  | queued | running | succeeded | failed | timeout
deriving DecidableEq, Repr

structure TaskGuardrails where
  taskMaxRuntimeMs : Nat
  taskMaxRetries : Nat
  taskMaxConcurrency : Nat
  taskIdempotencyEnabled : Bool
deriving DecidableEq, Repr

/-- `bounded(n, min, max)`. -/

def bounded (n mn mx : Nat) : Nat := Nat.max mn (Nat.min mx n)

/-- The per-request identity fields of a route task. -/

structure TaskCtx where
  route : Str
  msgId : Str
  dispatchId : Option Str
  taskKind : Str
  payloadSummary : Option Str
deriving DecidableEq, Repr

/-- `makeTaskKey(route, msgId, taskKind, payloadSummary)`. -/

def makeTaskKey (digest : Str → Str) (route msgId taskKind payloadSummary : Str) : Str :=
  taskKind ++ s2l ":" ++ msgId ++ s2l ":" ++
    digest (route ++ s2l "|" ++ msgId ++ s2l "|" ++ taskKind ++ s2l "|" ++ payloadSummary)

/-- A persisted task lifecycle record. -/

structure TaskRecord where
  taskKey : Str
  route : Str
  msgId : Str
  dispatchId : Str
  taskKind : Str
  status : TaskStatus
  retryCount : Nat
  errorReason : Option Str
  resultSummary : Option Str
  payloadSummary : Option Str
  atMs : Nat
deriving DecidableEq, Repr

/-- An entry of the module-scoped `completedTaskState` map. -/

structure CompletedEntry where
  status : TaskStatus
  atMs : Nat
  resultSummary : Option Str
deriving DecidableEq, Repr

abbrev CompletedMap := List (Str × CompletedEntry)

/-- `request.dispatchId || "none"` (the empty string is falsy). -/

def taskDispatchId (d : Option Str) : Str :=
  match d with
  | some v => if v = [] then s2l "none" else v
  | none => s2l "none"

/-- Record template shared by every lifecycle line of one request. -/

def mkTaskRecord (ctx : TaskCtx) (key : Str) (status : TaskStatus)
    (retryCount : Nat) (errorReason resultSummary : Option Str) (atMs : Nat) :
    TaskRecord :=
  { taskKey := key, route := ctx.route, msgId := ctx.msgId,
    dispatchId := taskDispatchId ctx.dispatchId, taskKind := ctx.taskKind,
    status := status, retryCount := retryCount, errorReason := errorReason,
    resultSummary := resultSummary, payloadSummary := ctx.payloadSummary,
    atMs := atMs }

/-- Outcome of the synchronous part of `enqueueRouteTask` (up to its
`return`). -/

structure EnqueueOutcome where
  taskKey : Str
  deduped : Bool
  records : List TaskRecord
  scheduledBody : Bool
deriving DecidableEq, Repr

/-- The synchronous part of `enqueueRouteTask`: guardrail normalization,
idempotent short-circuit, else persist `queued` and schedule the body. -/

def enqueueRouteTask (digest : Str → Str) (ctx : TaskCtx) (g : TaskGuardrails)
    (completed : CompletedMap) (now : Nat) : EnqueueOutcome :=
  let idem := g.taskIdempotencyEnabled
  let key := makeTaskKey digest ctx.route ctx.msgId ctx.taskKind
    (ctx.payloadSummary.getD [])
  let shortCircuit : Option CompletedEntry :=
    if idem then
      match mapGet completed key with
      | some done => if now - done.atMs < 24 * 60 * 60 * 1000 then some done else none
      | none => none
    else none
  match shortCircuit with
  | some done =>
    { taskKey := key, deduped := true,
      records := [mkTaskRecord ctx key done.status 0
        (if done.status = TaskStatus.failed ∨ done.status = TaskStatus.timeout
          then some (s2l "idempotent_replay_skipped") else none)
        done.resultSummary now],
      scheduledBody := false }
  | none =>
    { taskKey := key, deduped := false,
      records := [mkTaskRecord ctx key TaskStatus.queued 0 none none now],
      scheduledBody := true }

/-- Result of one execution of the scheduled task body. -/

structure TaskBodyResult where
  records : List TaskRecord
  completed : CompletedMap
  bodyRuns : Nat
  onFailedWith : Option TaskStatus
deriving DecidableEq, Repr

/-- Does the thrown message mark a timeout
(`String(error?.message).includes("timeout")`)? -/

def taskErrIsTimeout (msg : Str) : Bool := containsStr msg (s2l "timeout")

/-- The retry loop of the scheduled body: `for (attempt = 0; attempt <=
taskMaxRetries; attempt++)`.  `run` is the oracle for `request.run(attempt)`
under `withTimeout` (a timeout surfaces as a thrown message containing
`timeout`). -/

def taskBodyLoop (ctx : TaskCtx) (key : Str) (retries : Nat)
    (run : Nat → Except Str (Option Str)) (completed : CompletedMap)
    (now : Nat) : Nat → Nat → List TaskRecord → TaskBodyResult
  | 0, _, acc =>
    { records := acc, completed := completed, bodyRuns := 0,
      onFailedWith := some TaskStatus.failed }
  | fuel + 1, attempt, acc =>
    let runningRec := mkTaskRecord ctx key TaskStatus.running attempt none none now
    match run attempt with
    | .ok rs =>
      let summary := (rs.getD (s2l "ok")).take 280
      { records := acc ++ [runningRec,
          mkTaskRecord ctx key TaskStatus.succeeded attempt none (some summary) now],
        completed := mapSet completed key
          { status := TaskStatus.succeeded, atMs := now, resultSummary := some summary },
        bodyRuns := attempt + 1, onFailedWith := none }
    | .error msg =>
      let status := if taskErrIsTimeout msg then TaskStatus.timeout else TaskStatus.failed
      if retries ≤ attempt then
        { records := acc ++ [runningRec,
            mkTaskRecord ctx key status attempt (some (msg.take 280)) none now],
          completed := mapSet completed key
            { status := status, atMs := now, resultSummary := none },
          bodyRuns := attempt + 1, onFailedWith := some status }
      else
        let rest := taskBodyLoop ctx key retries run completed now fuel (attempt + 1)
          (acc ++ [runningRec])
        { rest with bodyRuns := rest.bodyRuns + 1 }

/-- One full `enqueueRouteTask` call whose scheduled body (if any) runs to
completion before anything else observes the state. -/

def enqueueRouteTaskAndRun (digest : Str → Str) (ctx : TaskCtx)
    (g : TaskGuardrails) (run : Nat → Except Str (Option Str))
    (completed : CompletedMap) (now : Nat) :
    EnqueueOutcome × TaskBodyResult :=
  let out := enqueueRouteTask digest ctx g completed now
  let retries := bounded g.taskMaxRetries 0 5
  if out.scheduledBody then
    (out, taskBodyLoop ctx out.taskKey retries run completed now (retries + 1) 0 [])
  else
    (out, { records := [], completed := completed, bodyRuns := 0, onFailedWith := none })

/-! ## Outbound normalizer (source: `outbound/media-payload-normalizer.ts`
and `sanitizeOutboundText` from `part_008`)

The global-regex replaces are modelled by leftmost-shortest scanners; the
`gim`-flagged `MEDIA:` marker extraction is modelled per line (`^`/`$` with
the `m` flag bind to line boundaries, `.` never crosses a newline).
-/

/-- Case-insensitive `startsWith`. -/

def ciStartsWith : Str → Str → Bool
  | _, [] => true
  | [], _ :: _ => false
  | h :: hs, n :: ns => toLowerChar h = toLowerChar n && ciStartsWith hs ns

/-- Find the lazy closing delimiter `closeStr` for `/(.*?)/`-style inner
content (which cannot cross a newline): returns the inner text and the
remainder after the closer. -/

def findCloseBy (isClose : Str → Option Str) : Str → Option (Str × Str)
  | [] => none
  | l@(c :: rest) =>
    match isClose l with
    | some after => some ([], after)
    | none =>
      if c = '\n' then none
      else (findCloseBy isClose rest).map (fun p => (c :: p.1, p.2))

/-- Closer for `**`. -/

def closeTwoStars : Str → Option Str
  | c1 :: c2 :: rest => if c1 = '*' ∧ c2 = '*' then some rest else none
  | _ => none

/-- Closer for a single `*`. -/

def closeOneStar : Str → Option Str
  | c :: rest => if c = '*' then some rest else none
  | _ => none

/-- The backtick character (U+0060). -/

def btChar : Char := Char.ofNat 96

/-- Closer for a single backtick. -/

def closeBacktick (l : Str) : Option Str :=
  match l with
  | c :: rest => if c = btChar then some rest else none
  | [] => none

/-- `text.replace(/\*\*(.*?)\*\*/g, "$1")` (fuel-bounded scan; each step
strictly shortens the input, so `l.length` fuel suffices). -/

def replaceBoldGo : Nat → Str → Str
  | 0, l => l
  | _, [] => []
  | fuel + 1, '*' :: '*' :: rest =>
    match findCloseBy closeTwoStars rest with
    | some (inner, after) => inner ++ replaceBoldGo fuel after
    | none => '*' :: replaceBoldGo fuel ('*' :: rest)
  | fuel + 1, c :: rest => c :: replaceBoldGo fuel rest

def replaceBold (l : Str) : Str := replaceBoldGo l.length l

/-- `text.replace(/\*(.*?)\*/g, "$1")`. -/

def replaceItalicGo : Nat → Str → Str
  | 0, l => l
  | _, [] => []
  | fuel + 1, '*' :: rest =>
    match findCloseBy closeOneStar rest with
    | some (inner, after) => inner ++ replaceItalicGo fuel after
    | none => '*' :: replaceItalicGo fuel rest
  | fuel + 1, c :: rest => c :: replaceItalicGo fuel rest

def replaceItalic (l : Str) : Str := replaceItalicGo l.length l

/-- The backtick variant of the markdown strip. -/

def replaceCodeGo : Nat → Str → Str
  | 0, l => l
  | _, [] => []
  | fuel + 1, c :: rest =>
    if c = btChar then
      match findCloseBy closeBacktick rest with
      | some (inner, after) => inner ++ replaceCodeGo fuel after
      | none => c :: replaceCodeGo fuel rest
    else c :: replaceCodeGo fuel rest

def replaceCode (l : Str) : Str := replaceCodeGo l.length l

/-- `text.replace(/#+\s+(.*)/g, "$1")`: hashes and the following whitespace
run vanish, the rest of the line stays. -/

def replaceHeadingGo : Nat → Str → Str
  | 0, l => l
  | _, [] => []
  | fuel + 1, '#' :: rest =>
    let hashes := rest.takeWhile (fun c => c = '#')
    let afterHash := rest.drop hashes.length
    let spaces := afterHash.takeWhile isSpaceChar
    if spaces = [] then '#' :: replaceHeadingGo fuel rest
    else
      let afterSpace := afterHash.drop spaces.length
      let line := afterSpace.takeWhile (fun c => ¬c = '\n')
      line ++ replaceHeadingGo fuel (afterSpace.drop line.length)
  | fuel + 1, c :: rest => c :: replaceHeadingGo fuel rest

def replaceHeading (l : Str) : Str := replaceHeadingGo l.length l

/-- `text.replace(/(https?:\/\/)/gi, "$1 ")` (anti-risk space insertion). -/

def insertSpaceAfterHttpGo : Nat → Str → Str
  | 0, l => l
  | _, [] => []
  | fuel + 1, l@(c :: rest) =>
    if ciStartsWith l (s2l "https://") then
      l.take 8 ++ ' ' :: insertSpaceAfterHttpGo fuel (rest.drop 7)
    else if ciStartsWith l (s2l "http://") then
      l.take 7 ++ ' ' :: insertSpaceAfterHttpGo fuel (rest.drop 6)
    else c :: insertSpaceAfterHttpGo fuel rest

def insertSpaceAfterHttp (l : Str) : Str := insertSpaceAfterHttpGo l.length l

/-- Case-insensitive global literal replace (`host.docker.internal`; also
used for the letter-free literal `127.0.0.1`, where case has no effect). -/

def replaceAllCIGo (needle repl : Str) : Nat → Str → Str
  | 0, l => l
  | _, [] => []
  | fuel + 1, l@(c :: rest) =>
    if ciStartsWith l needle ∧ 1 ≤ needle.length then
      repl ++ replaceAllCIGo needle repl fuel (rest.drop (needle.length - 1))
    else c :: replaceAllCIGo needle repl fuel rest

def replaceAllCI (needle repl : Str) (l : Str) : Str :=
  replaceAllCIGo needle repl l.length l

/-- A JS word character (`\w`), for `\b` boundaries. -/

def isWordChar (c : Char) : Bool :=
  isDigitChar c || (65 ≤ c.toNat && c.toNat ≤ 90) ||
  (97 ≤ c.toNat && c.toNat ≤ 122) || c = '_'

/-- One `\d{1,3}` segment: its length, and the remainder. -/

def ipSeg (l : Str) : Option (Nat × Str) :=
  let n := (l.takeWhile isDigitChar).length
  if 1 ≤ n ∧ n ≤ 3 then some (n, l.drop n) else none

/-- Match `(?:\d{1,3}\.){3}\d{1,3}\b` at the head of `l`; return the
matched length. -/

def matchIp (l : Str) : Option Nat :=
  match ipSeg l with
  | none => none
  | some (n1, r1) =>
    match r1 with
    | '.' :: r1' =>
      match ipSeg r1' with
      | none => none
      | some (n2, r2) =>
        match r2 with
        | '.' :: r2' =>
          match ipSeg r2' with
          | none => none
          | some (n3, r3) =>
            match r3 with
            | '.' :: r3' =>
              match ipSeg r3' with
              | none => none
              | some (n4, r4) =>
                match r4 with
                | [] => some (n1 + 1 + n2 + 1 + n3 + 1 + n4)
                | c :: _ =>
                  if isWordChar c then none
                  else some (n1 + 1 + n2 + 1 + n3 + 1 + n4)
            | _ => none
        | _ => none
    | _ => none

/-- `/\b(?:\d{1,3}\.){3}\d{1,3}\b/g → "[ip]"`; `prevIsWord` tracks the
left-hand `\b` boundary. -/

def redactIpGo : Nat → Bool → Str → Str
  | 0, _, l => l
  | _, _, [] => []
  | fuel + 1, prevIsWord, l@(c :: rest) =>
    match (if prevIsWord then none else matchIp l) with
    | some k => s2l "[ip]" ++ redactIpGo fuel true (rest.drop (k - 1))
    | none => c :: redactIpGo fuel (isWordChar c) rest

/-- `redactHostSensitive`. -/

def redactHostSensitive (text : Str) : Str :=
  let t1 := replaceAllCI (s2l "host.docker.internal") (s2l "[host]") text
  let t2 := replaceAllCI (s2l "127.0.0.1") (s2l "[loopback]") t1
  redactIpGo t2.length false t2

/-- `sanitizeOutboundText`. -/

def sanitizeOutboundText (text : Str) : Str := redactHostSensitive text

/-- Does `hay` end with `needle`? -/

def endsWithStr (hay needle : Str) : Bool :=
  startsWithStr hay.reverse needle.reverse

inductive MediaKind
  | image | record | video | file
deriving DecidableEq, Repr

/-- `inferKind(source)`: classify by lowercased extension. -/

def inferKind (source : Str) : MediaKind :=
  let l := toLower source
  if endsWithStr l (s2l ".jpg") || endsWithStr l (s2l ".jpeg") ||
      endsWithStr l (s2l ".png") || endsWithStr l (s2l ".gif") ||
      endsWithStr l (s2l ".webp") then MediaKind.image
  else if endsWithStr l (s2l ".mp3") || endsWithStr l (s2l ".wav") ||
      endsWithStr l (s2l ".ogg") || endsWithStr l (s2l ".m4a") ||
      endsWithStr l (s2l ".aac") || endsWithStr l (s2l ".flac") ||
      endsWithStr l (s2l ".amr") || endsWithStr l (s2l ".silk") then MediaKind.record
  else if endsWithStr l (s2l ".mp4") || endsWithStr l (s2l ".mov") ||
      endsWithStr l (s2l ".m4v") || endsWithStr l (s2l ".webm") ||
      endsWithStr l (s2l ".mkv") || endsWithStr l (s2l ".avi") then MediaKind.video
  else MediaKind.file

structure ReplyFile where
  url : Str
  name : Option Str
deriving DecidableEq, Repr

structure QQReplyPayload where
  text : Option Str
  mediaUrl : Option Str
  mediaUrls : Option (List Str)
  files : Option (List ReplyFile)
deriving DecidableEq, Repr

/-- The config flags `normalizeReplyPayload` reads. -/

structure OutboundConfig where
  formatMarkdown : Bool
  antiRiskMode : Bool
deriving DecidableEq, Repr

structure NormalizeOpts where
  splitSendRequested : Bool
  maxMessageLength : Option Nat
deriving DecidableEq, Repr

structure MediaItem where
  source : Str
  name : Option Str
  kindHint : MediaKind
deriving DecidableEq, Repr

structure NormalizedReplyPayload where
  textChunks : List Str
  mediaItems : List MediaItem
deriving DecidableEq, Repr

/-- Split on `'\n'`. -/

def splitOnNl : Str → List Str
  | [] => [[]]
  | '\n' :: rest => [] :: splitOnNl rest
  | c :: rest =>
    match splitOnNl rest with
    | [] => [[c]]
    | h :: t => (c :: h) :: t

/-- Join with `'\n'`. -/

def joinNl : List Str → Str
  | [] => []
  | [l] => l
  | l :: rest => l ++ '\n' :: joinNl rest

/-- Is the line a `/^\s*MEDIA:\s*(.+)\s*$/i` match?  (`.+` requires at
least one character after the marker.) -/

def isMediaLine (line : Str) : Bool :=
  let t := line.dropWhile isSpaceChar
  ciStartsWith t (s2l "media:") && ¬t.drop 6 = []

/-- The captured-and-trimmed payload of a media line. -/

def mediaLinePayload (line : Str) : Str :=
  trimStr ((line.dropWhile isSpaceChar).drop 6)

/-- `[...text.matchAll(/^\s*MEDIA:\s*(.+)\s*$/gim)].map(m =>
m[1].trim()).filter(Boolean)`. -/

def inlineMediaOf (text : Str) : List Str :=
  (splitOnNl text).filterMap fun line =>
    if isMediaLine line then
      let p := mediaLinePayload line
      if p = [] then none else some p
    else none

/-- `text.replace(/^\s*MEDIA:\s*.+\s*$/gim, "")`: the media lines lose
their content, the newlines stay. -/

def removeMediaLines (text : Str) : Str :=
  joinNl ((splitOnNl text).map fun line => if isMediaLine line then [] else line)

/-- `Array.from(new Set(...))`: dedup keeping the first occurrence. -/

def dedupKeepFirstGo (seen : List Str) : List Str → List Str
  | [] => []
  | x :: rest =>
    if x ∈ seen then dedupKeepFirstGo seen rest
    else x :: dedupKeepFirstGo (x :: seen) rest

def dedupKeepFirst (l : List Str) : List Str := dedupKeepFirstGo [] l

/-- `for (let i = 0; i < text.length; i += ml) push(text.slice(i, i + ml))`
(fuel-bounded; `ml ≥ 1` makes `text.length` fuel suffice). -/

def textChunksLoop (ml : Nat) : Nat → Str → List Str
  | 0, _ => []
  | fuel + 1, l => if l = [] then [] else l.take ml :: textChunksLoop ml fuel (l.drop ml)

/-- The text-transform pipeline of `normalizeReplyPayload` (markdown strip,
anti-risk spacing, `MEDIA:` line removal, trim, sanitize). -/

def replyTextPipeline (payload : QQReplyPayload) (config : OutboundConfig) : Str :=
  let text0 := payload.text.getD []
  let text1 :=
    if config.formatMarkdown then
      replaceHeading (replaceCode (replaceItalic (replaceBold text0)))
    else text0
  let text2 := if config.antiRiskMode then insertSpaceAfterHttp text1 else text1
  sanitizeOutboundText (trimStr (removeMediaLines text2))

/-- The `textChunks` assembly of `normalizeReplyPayload`. -/

def buildTextChunks (splitSendRequested : Bool) (maxMessageLength : Nat)
    (text3 : Str) : List Str :=
  if text3 = [] then []
  else if splitSendRequested then
    let lineParts := ((splitOnNl text3).map trimStr).filter (fun s => ¬s = [])
    if 2 ≤ lineParts.length ∧ lineParts.length ≤ 12 then lineParts
    else textChunksLoop maxMessageLength text3.length text3
  else textChunksLoop maxMessageLength text3.length text3

/-- `normalizeReplyPayload(payload, config, opts)`. -/

def normalizeReplyPayload (payload : QQReplyPayload) (config : OutboundConfig)
    (opts : NormalizeOpts) : NormalizedReplyPayload :=
  let splitSendRequested := opts.splitSendRequested
  let maxMessageLength := Nat.max 1 (opts.maxMessageLength.getD 4000)
  let directMediaUrls :=
    (((match payload.mediaUrl with | some u => [u] | none => []) ++
        payload.mediaUrls.getD []).map trimStr).filter (fun v => ¬v = [])
  let fileMedia :=
    ((payload.files.getD []).filter (fun f => ¬trimStr f.url = [])).map
      (fun f => (trimStr f.url, f.name))
  let text2 :=
    let text0 := payload.text.getD []
    let text1 :=
      if config.formatMarkdown then
        replaceHeading (replaceCode (replaceItalic (replaceBold text0)))
      else text0
    if config.antiRiskMode then insertSpaceAfterHttp text1 else text1
  let inline := inlineMediaOf text2
  let text3 := replyTextPipeline payload config
  let mediaItems :=
    (dedupKeepFirst (directMediaUrls ++ inline)).map
      (fun s => MediaItem.mk s none (inferKind s)) ++
    fileMedia.map (fun p => MediaItem.mk p.1 p.2 (inferKind p.1))
  { textChunks := buildTextChunks splitSendRequested maxMessageLength text3,
    mediaItems := mediaItems }

/-! ## Automation scheduler (source: `qq-automation-manager/src/service.ts`)

`localDateInTz` reads a civil date either from `new Date(ms)` (no timezone:
modelled by the standard epoch→civil conversion `civilOfMs`) or through
`Intl.DateTimeFormat` (modelled by an oracle `localTable`).  `Math.random`
inside `randomMinutes` is a `draw` parameter.
-/

/-- The minute-resolution civil datetime `localDateInTz` produces, as read
back through `getUTCFullYear/Month/Date/Hours/Minutes/Day`. -/

structure CivilMin where
  year : Nat
  month : Nat
  day : Nat
  hour : Nat
  minute : Nat
  dow : Nat
deriving DecidableEq, Repr

/-- `new Date(ms)` in UTC (standard civil-from-days conversion; the epoch,
1970-01-01, is a Thursday). -/

def civilOfMs (ms : Nat) : CivilMin :=
  let days := ms / 86400000
  let secs := (ms / 1000) % 86400
  let z := days + 719468
  let era := z / 146097
  let doe := z % 146097
  let yoe := (doe - doe / 1460 + doe / 36524 - doe / 146096) / 365
  let y := yoe + era * 400
  let doy := doe - (365 * yoe + yoe / 4 - yoe / 100)
  let mp := (5 * doy + 2) / 153
  let d := doy - (153 * mp + 2) / 5 + 1
  let m := if mp < 10 then mp + 3 else mp - 9
  { year := if m ≤ 2 then y + 1 else y, month := m, day := d,
    hour := secs / 3600, minute := (secs % 3600) / 60, dow := (days + 4) % 7 }

/-- `localDateInTz(nowMs, tz)`: without a (nonempty) tz, `new Date(nowMs)`;
with one, the `Intl.DateTimeFormat` table. -/

def localDateInTz (localTable : Nat → CivilMin) (nowMs : Nat)
    (tz : Option Str) : CivilMin :=
  match tz with
  | none => civilOfMs nowMs
  | some t => if trimStr t = [] then civilOfMs nowMs else localTable nowMs

/-- Decimal digit character. -/

def digitChar (d : Nat) : Char := Char.ofNat (48 + d)

/-- Little-endian base-10 digits (fuel-bounded). -/

def revDigsGo : Nat → Nat → List Nat
  | 0, _ => []
  | fuel + 1, n => if n = 0 then [] else n % 10 :: revDigsGo fuel (n / 10)

/-- `String(n)` for a natural number. -/

def natToStr (n : Nat) : Str :=
  if n = 0 then ['0'] else ((revDigsGo n n).map digitChar).reverse

/-- `String(n).padStart(2, "0")`. -/

def padStart2 (s : Str) : Str := List.replicate (2 - s.length) '0' ++ s

/-- `cronBucket(nowMs, tz)` = `YYYYMMDDHHMM` of the local civil date. -/

def cronBucket (d : CivilMin) : Str :=
  natToStr d.year ++ padStart2 (natToStr d.month) ++ padStart2 (natToStr d.day) ++
    padStart2 (natToStr d.hour) ++ padStart2 (natToStr d.minute)

/-- Split on one separator character. -/

def splitOnChar (sep : Char) : Str → List Str
  | [] => [[]]
  | c :: rest =>
    if c = sep then [] :: splitOnChar sep rest
    else
      match splitOnChar sep rest with
      | [] => [[c]]
      | h :: t => (c :: h) :: t

/-- `trim().split(/\s+/)` dropping empty fields (an all-blank expression
yields no fields either way once the 5-field check runs). -/

def wordsWs : Nat → Str → List Str
  | 0, _ => []
  | fuel + 1, l =>
    let l1 := l.dropWhile isSpaceChar
    if l1 = [] then []
    else
      let w := l1.takeWhile (fun c => ¬isSpaceChar c)
      w :: wordsWs fuel (l1.drop w.length)

/-- Decimal parse (`Number(p)` for the plain-digit literals a cron field
holds). -/

def parseDec (ds : Str) : Nat :=
  ds.foldl (fun a c => 10 * a + (c.toNat - 48)) 0

/-- `for (let i = mn; i <= mx; i += step) out.add(i)`. -/

def stepList (mn mx step : Nat) : List Nat :=
  if mx < mn then []
  else (List.range ((mx - mn) / Nat.max 1 step + 1)).map
    (fun k => mn + k * Nat.max 1 step)

/-- Is the string one or more decimal digits? -/

def isDigits (l : Str) : Bool := ¬l = [] && l.all isDigitChar

/-- `parseIntSetExpr(expr, min, max)` as the list of members added. -/

def parseIntSetExpr (expr : Str) (mn mx : Nat) : List Nat :=
  let e := if expr = [] then s2l "*" else expr
  let parts := ((splitOnChar ',' e).map trimStr).filter (fun p => ¬p = [])
  parts.flatMap fun p =>
    if p = s2l "*" then stepList mn mx 1
    else
      match p with
      | '*' :: '/' :: ds =>
        if isDigits ds then stepList mn mx (Nat.max 1 (parseDec ds)) else []
      | _ =>
        match splitOnChar '-' p with
        | [a, b] =>
          if isDigits a && isDigits b then
            stepList (Nat.max mn (parseDec a)) (Nat.min mx (parseDec b)) 1
          else []
        | _ =>
          if isDigits p then
            let n := parseDec p
            if mn ≤ n ∧ n ≤ mx then [n] else []
          else []

/-- `matchesCron(expr, nowMs, tz)` over the already-localized date. -/

def matchesCron (expr : Str) (d : CivilMin) : Bool :=
  let fields := wordsWs (trimStr expr).length (trimStr expr)
  if ¬fields.length = 5 then false
  else
    ((parseIntSetExpr ((fields.get? 0).getD []) 0 59).contains d.minute) &&
    ((parseIntSetExpr ((fields.get? 1).getD []) 0 23).contains d.hour) &&
    ((parseIntSetExpr ((fields.get? 4).getD []) 0 6).contains d.dow)

/-- `randomMinutes(minMinutes, maxMinutes)` with the `Math.random` draw as a
parameter (`min + floor(random * (max - min + 1))`). -/

def randomMinutes (minMinutes maxMinutes draw : Nat) : Nat :=
  let mn := Nat.max 1 minMinutes
  let mx := Nat.max mn maxMinutes
  mn + draw % (mx - mn + 1)

/-- The persisted per-target state fields the scheduler reads and writes. -/

structure TargetState where
  lastTriggeredAtMs : Nat
  lastSentAtMs : Nat
  nextEligibleAtMs : Nat
  lastInboundAtMs : Nat
  lastOutboundAtMs : Nat
  lastRunResult : Str
  lastSkipReason : Option Str
  lastError : Option Str
  atDone : Bool
  lastCronBucket : Option Str
deriving DecidableEq, Repr

/-- A target schedule (for `at`, the `Date.parse` result: `none` models
`NaN`). -/

inductive CronSchedule
  | cron (expr : Str) (tz : Option Str)
  | every (everyMs : Nat)
  | atTime (parsedAtMs : Option Nat)

/-- `nextStatePatch` of `shouldRunNow`. -/

structure DuePatch where
  atDone : Option Bool
  lastCronBucket : Option Str
deriving DecidableEq, Repr

def noPatch : DuePatch := { atDone := none, lastCronBucket := none }

/-- `Object.assign(base, due.nextStatePatch)`. -/

def applyDuePatch (s : TargetState) (p : DuePatch) : TargetState :=
  { s with atDone := p.atDone.getD s.atDone,
           lastCronBucket := match p.lastCronBucket with
             | some b => some b
             | none => s.lastCronBucket }

/-- `shouldRunNow(schedule, state, nowMs)`.  (For `every`, the schema
enforces `everyMs ≥ 60000`, so the Nat-truncated `now - last` agrees with
the source's signed comparison.) -/

def shouldRunNow (localTable : Nat → CivilMin) (schedule : CronSchedule)
    (state : TargetState) (nowMs : Nat) : Bool × DuePatch :=
  match schedule with
  | .every everyMs =>
    if state.lastTriggeredAtMs = 0 then (true, noPatch)
    else (decide (everyMs ≤ nowMs - state.lastTriggeredAtMs), noPatch)
  | .atTime parsed =>
    if state.atDone then (false, noPatch)
    else
      match parsed with
      | none => (false, noPatch)
      | some atMs =>
        if atMs ≤ nowMs then (true, { atDone := some true, lastCronBucket := none })
        else (false, noPatch)
  | .cron expr tz =>
    let bucket := cronBucket (localDateInTz localTable nowMs tz)
    if state.lastCronBucket = some bucket then (false, noPatch)
    else if matchesCron expr (localDateInTz localTable nowMs tz) then
      (true, { atDone := none, lastCronBucket := some bucket })
    else (false, noPatch)

/-- The target's `job.smart` block. -/

structure SmartConfig where
  enabled : Option Bool
  minSilenceMinutes : Option Nat
  activeConversationMinutes : Option Nat
  randomIntervalMinMinutes : Option Nat
  randomIntervalMaxMinutes : Option Nat
deriving DecidableEq, Repr

/-- `readRecentRouteTimes` result. -/

structure RouteRecentTimes where
  lastInboundAtMs : Nat
  lastOutboundAtMs : Nat
deriving DecidableEq, Repr

/-- JS `x || d` on an optional numeric field: `undefined` and `0` are both
falsy, so either yields the default `d`. -/

def jsOrD (x : Option Nat) (d : Nat) : Nat :=
  match x with
  | none => d
  | some 0 => d
  | some n => n

/-- The smart-throttle guard chain of `reconcileOnce` (executed only for a
due target), returning the skip reason and the possibly-updated state
(`nextEligibleAtMs` seeding).  Nat truncation agrees with the source's
signed comparisons: a "future" inbound still lands in `silence_not_reached`
and an early `nowMs - activeMs` underflow still counts as active. -/

def smartSkipReason (smart : SmartConfig) (times : RouteRecentTimes)
    (base : TargetState) (nowMs draw : Nat) : Option Str × TargetState :=
  if smart.enabled = some false then (none, base)
  else
    let minSilenceMinutes := Nat.max 1 (jsOrD smart.minSilenceMinutes 30)
    let activeConversationMinutes :=
      Nat.max 1 (jsOrD smart.activeConversationMinutes 25)
    let randomMin := Nat.max 1 (jsOrD smart.randomIntervalMinMinutes 30)
    let randomMax := Nat.max randomMin (jsOrD smart.randomIntervalMaxMinutes 60)
    let minSilenceMs := minSilenceMinutes * 60000
    let activeMs := activeConversationMinutes * 60000
    if times.lastInboundAtMs = 0 then (some (s2l "no_inbound_yet"), base)
    else if nowMs - times.lastInboundAtMs < minSilenceMs then
      (some (s2l "silence_not_reached"), base)
    else if 0 < times.lastInboundAtMs ∧ 0 < times.lastOutboundAtMs ∧
        nowMs - activeMs ≤ Nat.max times.lastInboundAtMs times.lastOutboundAtMs then
      (some (s2l "active_conversation"), base)
    else
      let base1 :=
        if base.nextEligibleAtMs = 0 ∧ 0 < base.lastSentAtMs then
          { base with nextEligibleAtMs :=
              base.lastSentAtMs + randomMinutes randomMin randomMax draw * 60000 }
        else base
      if nowMs < base1.nextEligibleAtMs then
        (some (s2l "interval_not_reached"), base1)
      else (none, base1)

/-- `triggerAgentTurn` outcome oracle. -/

inductive TriggerOutcome
  | ok (summary : Str)
  | err (msg : Str)

/-- The `automation-state.ndjson` record fields the claims read. -/

structure AutomationRecordM where
  triggered : Bool
  produced : Bool
  skipped : Bool
  note : Str
deriving DecidableEq, Repr

/-- Outcome of one target's handling within `reconcileOnce` from the
due-check on: the stored state, the appended record (if the target got past
the due check), and whether an agent turn was invoked. -/

structure ReconcileOutcome where
  state : TargetState
  record : Option AutomationRecordM
  agentInvoked : Bool
deriving Repr

/-- The per-target tail of `reconcileOnce`: due check, smart throttle, then
skip bookkeeping or agent trigger. -/

def reconcileTargetStep (localTable : Nat → CivilMin) (schedule : CronSchedule)
    (smart : SmartConfig) (times : RouteRecentTimes) (prevState : TargetState)
    (nowMs draw : Nat) (trigger : TriggerOutcome) : ReconcileOutcome :=
  let due := shouldRunNow localTable schedule prevState nowMs
  let base := applyDuePatch prevState due.2
  if due.1 = false then { state := base, record := none, agentInvoked := false }
  else
    let skip := smartSkipReason smart times base nowMs draw
    match skip.1 with
    | some reason =>
      { state :=
          { skip.2 with
              lastTriggeredAtMs := nowMs
              lastRunResult := s2l "skipped"
              lastSkipReason := some reason
              lastError := some [] },
        record := some
          { triggered := true, produced := false, skipped := true,
            note := s2l "skip:" ++ reason },
        agentInvoked := false }
    | none =>
      match trigger with
      | .ok _ =>
        let randomMin := Nat.max 1 (jsOrD smart.randomIntervalMinMinutes 30)
        let randomMax := Nat.max randomMin (jsOrD smart.randomIntervalMaxMinutes 60)
        { state :=
            { skip.2 with
                lastTriggeredAtMs := nowMs
                lastSentAtMs := nowMs
                nextEligibleAtMs := nowMs + randomMinutes randomMin randomMax draw * 60000
                lastRunResult := s2l "sent"
                lastSkipReason := some []
                lastError := some [] },
          record := some
            { triggered := true, produced := true, skipped := false,
              note := s2l "sent" },
          agentInvoked := true }
      | .err e =>
        { state :=
            { skip.2 with
                lastTriggeredAtMs := nowMs
                lastRunResult := s2l "failed"
                lastError := some e },
          record := some
            { triggered := true, produced := false, skipped := false,
              note := s2l "error:" ++ e },
          agentInvoked := true }

/-! ## Routing & identifiers (source: `routing.ts`)

The anchored regexes are modelled with `startsWithStr` plus an
end-anchored check on the dropped remainder.  `normalizeTarget` lowercases
before matching, which absorbs every `i` flag; `QQ_ROUTE_PATTERN` and the
`parseTarget` regexes carry no `i` flag, so their literals stay
case-sensitive (lowercase) while guild id characters may be either case.
-/

/-- `\d{5,12}`, anchored at the end. -/

def digits512 (l : Str) : Bool :=
  l.all isDigitChar && 5 ≤ l.length && l.length ≤ 12

/-- One `[A-Za-z0-9_.-]` character. -/

def safeGuildChar (c : Char) : Bool :=
  (65 ≤ c.toNat && c.toNat ≤ 90) || (97 ≤ c.toNat && c.toNat ≤ 122) ||
  isDigitChar c || c = '_' || c = '.' || c = '-'

/-- After one or more safe chars: either more of them, or `:` followed by a
nonempty all-safe second part (end-anchored). -/

def guildTailAux : Str → Bool
  | [] => false
  | c :: rest =>
    if c = ':' then ¬rest = [] && rest.all safeGuildChar
    else safeGuildChar c && guildTailAux rest

/-- `[A-Za-z0-9_.-]+:[A-Za-z0-9_.-]+`, end-anchored. -/

def guildTail : Str → Bool
  | [] => false
  | c :: rest => safeGuildChar c && guildTailAux rest

/-- `/^user:\d{5,12}$/`. -/

def matchUserRoute (l : Str) : Bool :=
  startsWithStr l ['u', 's', 'e', 'r', ':'] && digits512 (l.drop 5)

/-- `/^group:\d{5,12}$/`. -/

def matchGroupRoute (l : Str) : Bool :=
  startsWithStr l ['g', 'r', 'o', 'u', 'p', ':'] && digits512 (l.drop 6)

/-- `/^guild:[A-Za-z0-9_.-]+:[A-Za-z0-9_.-]+$/`. -/

def matchGuildRoute (l : Str) : Bool :=
  startsWithStr l ['g', 'u', 'i', 'l', 'd', ':'] && guildTail (l.drop 6)

/-- `isValidQQRoute`: `QQ_ROUTE_PATTERN.test(String(route || "").trim())`. -/

def isValidQQRoute (route : Str) : Bool :=
  let t := trimStr route
  matchUserRoute t || matchGroupRoute t || matchGuildRoute t

/-- `.replace(/^qq:/i, "")`. -/

def stripQQ : Str → Str
  | a :: b :: ':' :: rest =>
    if (a = 'q' ∨ a = 'Q') ∧ (b = 'q' ∨ b = 'Q') then rest
    else a :: b :: ':' :: rest
  | l => l

/-- `/^channel:(private|group):(\d{5,12})$/` with the rewrite to
`user:`/`group:`. -/

def channelResult (v : Str) : Option Str :=
  if startsWithStr v ['c','h','a','n','n','e','l',':','p','r','i','v','a','t','e',':']
      && digits512 (v.drop 16) then
    some (['u','s','e','r',':'] ++ v.drop 16)
  else if startsWithStr v ['c','h','a','n','n','e','l',':','g','r','o','u','p',':']
      && digits512 (v.drop 14) then
    some (['g','r','o','u','p',':'] ++ v.drop 14)
  else none

/-- `/^session:qq:(user|group|guild:.+)$/`, returning the capture. -/

def sessionResult (v : Str) : Option Str :=
  if startsWithStr v ['s','e','s','s','i','o','n',':','q','q',':'] then
    let rest := v.drop 11
    if rest = ['u','s','e','r'] ∨ rest = ['g','r','o','u','p'] then some rest
    else if startsWithStr rest ['g','u','i','l','d',':'] && ¬rest.drop 6 = [] then
      some rest
    else none
  else none

/-- `/^private:\d{5,12}$/` with the `user:` rewrite. -/

def privateResult (v : Str) : Option Str :=
  if startsWithStr v ['p','r','i','v','a','t','e',':'] && digits512 (v.drop 8) then
    some (['u','s','e','r',':'] ++ v.drop 8)
  else none

/-- `normalizeTarget(raw)`. -/

def normalizeTarget (raw : Str) : Str :=
  let value := stripQQ (trimStr raw)
  if value = [] then value
  else
    let v := toLower value
    match channelResult v with
    | some out => out
    | none =>
      match sessionResult v with
      | some out => out
      | none =>
        match privateResult v with
        | some out => out
        | none =>
          if digits512 v then ['u','s','e','r',':'] ++ v
          else if matchUserRoute v then v
          else if matchGroupRoute v then v
          else if matchGuildRoute v then v
          else value

/-- `ParsedTarget`. -/

inductive ParsedTarget
  | user (userId : Nat) (route : Str)
  | group (groupId : Nat) (route : Str)
  | guild (guildId channelId : Str) (route : Str)
deriving DecidableEq, Repr

/-- The `route` field. -/

def ParsedTarget.route : ParsedTarget → Str
  | .user _ r => r
  | .group _ r => r
  | .guild _ _ r => r

/-- `parseTarget(raw)`: `parseInt` of the id digits (which drops leading
zeros when re-rendered by the `user:${userId}` template). -/

def parseTarget (raw : Str) : Option ParsedTarget :=
  let target := normalizeTarget (trimStr raw)
  if matchUserRoute target then
    let userId := parseDec (target.drop 5)
    some (ParsedTarget.user userId (['u','s','e','r',':'] ++ natToStr userId))
  else if matchGroupRoute target then
    let groupId := parseDec (target.drop 6)
    some (ParsedTarget.group groupId (['g','r','o','u','p',':'] ++ natToStr groupId))
  else if matchGuildRoute target then
    let tail := target.drop 6
    let guildId := tail.takeWhile (fun c => ¬c = ':')
    let channelId := (tail.drop guildId.length).drop 1
    some (ParsedTarget.guild guildId channelId
      (['g','u','i','l','d',':'] ++ guildId ++ ':' :: channelId))
  else none

/-- Does a `user:`/`group:` route carry a leading zero in its id digits?
(`parseInt` re-rendering drops such zeros.) -/

def noLeadingZeroId : Str → Bool
  | 'u' :: 's' :: 'e' :: 'r' :: ':' :: '0' :: _ => false
  | 'g' :: 'r' :: 'o' :: 'u' :: 'p' :: ':' :: '0' :: _ => false
  | _ => true

theorem mapGet_eq_none_of_not_mem {α : Type} (m : List (Str × α)) (k : Str)
    (h : k ∉ m.map Prod.fst) : mapGet m k = none := by
  induction m with
  | nil => rfl
  | cons hd tl ih =>
    obtain ⟨k', v⟩ := hd
    simp only [List.map_cons, List.mem_cons, not_or] at h
    simp only [mapGet, if_neg (fun (he : k' = k) => h.1 he.symm)]
    exact ih h.2

theorem mapGet_mapDelete_self {α : Type} (m : List (Str × α)) (k : Str)
    (h : mapKeysNodup m) : mapGet (mapDelete m k) k = none := by
  induction m with
  | nil => rfl
  | cons hd tl ih =>
    obtain ⟨k', v⟩ := hd
    simp only [mapKeysNodup, List.map_cons, List.nodup_cons] at h
    by_cases hk : k' = k
    · subst hk
      simp only [mapDelete, if_pos rfl]
      exact mapGet_eq_none_of_not_mem tl k' h.1
    · simp only [mapDelete, if_neg hk, mapGet, if_neg hk]
      exact ih h.2

/-- C1. `clearRouteInFlight(r, d)` with a (nonempty) dispatch id `d` returns
`true` and removes the entry exactly when the current in-flight entry for `r`
has `dispatchId = d`; in every other case it returns `false` and leaves the
map unchanged.  Dispatch ids produced by `nextDispatchId` have the shape
`<route>:<n>:<ts>` and are never the empty string, so `d ≠ []` covers every
dispatch id. -/

theorem C1_clear_by_owner (m : InFlightMap) (route d : Str)
    (hd : d ≠ []) (hm : mapKeysNodup m) :
    ((clearRouteInFlight m route (some d)).1 = true ↔
      ∃ cur, mapGet m route = some cur ∧ cur.dispatchId = d)
    ∧ ((clearRouteInFlight m route (some d)).1 = true →
        mapGet (clearRouteInFlight m route (some d)).2 route = none)
    ∧ ((clearRouteInFlight m route (some d)).1 = false →
        (clearRouteInFlight m route (some d)).2 = m) := by
  simp only [clearRouteInFlight, if_neg hd]
  cases hg : mapGet m route with
  | none =>
    refine ⟨?_, ?_, ?_⟩
    · simp
    · simp
    · intro _; trivial
  | some cur =>
    by_cases hid : cur.dispatchId = d
    · simp only [if_pos hid]
      refine ⟨?_, ?_, ?_⟩
      · simp only [true_iff]
        exact ⟨cur, rfl, hid⟩
      · intro _
        exact mapGet_mapDelete_self m route hm
      · intro h; cases h
    · simp only [if_neg hid]
      refine ⟨?_, ?_, ?_⟩
      · constructor
        · intro h; cases h
        · rintro ⟨cur', hcur', hid'⟩
          cases hcur'
          exact absurd hid' hid
      · intro h; cases h
      · intro _; trivial

/-- Witness for C1 at a concrete map and id. -/

theorem C1_clear_by_owner_witness :
    let st : RouteInFlightState :=
      { route := s2l "user:12345", dispatchId := s2l "user:12345:1:100",
        msgId := s2l "42", startedAt := 100, aborted := false }
    let m : InFlightMap := [(s2l "user:12345", st)]
    ((clearRouteInFlight m (s2l "user:12345") (some (s2l "user:12345:1:100"))).1 = true ↔
      ∃ cur, mapGet m (s2l "user:12345") = some cur ∧
        cur.dispatchId = s2l "user:12345:1:100")
    ∧ ((clearRouteInFlight m (s2l "user:12345") (some (s2l "user:12345:1:100"))).1 = true →
        mapGet (clearRouteInFlight m (s2l "user:12345")
          (some (s2l "user:12345:1:100"))).2 (s2l "user:12345") = none)
    ∧ ((clearRouteInFlight m (s2l "user:12345") (some (s2l "user:12345:1:100"))).1 = false →
        (clearRouteInFlight m (s2l "user:12345")
          (some (s2l "user:12345:1:100"))).2 = m) :=
  C1_clear_by_owner _ _ _ (by decide) (by decide)

/-- C10. With the dispatch-id argument omitted, `clearRouteInFlight` removes
the route's entry unconditionally and returns `true` exactly when an entry
existed. -/

theorem C10_clear_without_id (m : InFlightMap) (route : Str)
    (hm : mapKeysNodup m) :
    clearRouteInFlight m route none = (mapContains m route, mapDelete m route)
    ∧ mapGet (clearRouteInFlight m route none).2 route = none := by
  refine ⟨rfl, ?_⟩
  exact mapGet_mapDelete_self m route hm

/-- Witness for C10: the owner guard is skipped even when another dispatch
owns the entry. -/

theorem C10_clear_without_id_witness :
    let st : RouteInFlightState :=
      { route := s2l "user:12345", dispatchId := s2l "user:12345:7:900",
        msgId := s2l "9", startedAt := 900, aborted := false }
    let m : InFlightMap := [(s2l "user:12345", st)]
    clearRouteInFlight m (s2l "user:12345") none =
      (mapContains m (s2l "user:12345"), mapDelete m (s2l "user:12345"))
    ∧ mapGet (clearRouteInFlight m (s2l "user:12345") none).2 (s2l "user:12345") = none :=
  C10_clear_without_id _ _ (by decide)

/-- C3. If the attempt-1 preflight throws a `DispatchDropError` whose reason
is `dispatch_id_mismatch` or `dispatch_aborted` (its message is the reason
string), `sendWithRetry` terminates at once by rethrowing that error: the
trace holds exactly the preflight run — no `fnRun` (the send function is
never invoked) and no `backoffSlept` (no retry is consumed) — and the error
is not flagged retriable. -/

theorem sendWithRetryLoop_preflight_drop {α : Type} (meta : SendMetaM)
    (steps : Nat → AttemptStep α) (now maxA fuel i : Nat)
    (recent : List (Str × Nat)) (trace : List SendEvent) (lastErr : Str)
    (r : Str) (hpre : (steps i).preflightErr = some r)
    (hnotR : isRetriableSendError r = false) (hi : ¬1 < i) :
    sendWithRetryLoop meta steps now maxA (fuel + 1) i recent trace lastErr =
      (SendResult.thrown r false, trace ++ [SendEvent.preflightRun i]) := by
  rw [sendWithRetryLoop]
  simp only [hpre, hnotR, Bool.false_eq_true, and_false, if_false]
  split
  · rw [if_neg (fun hcon => hi hcon.1)]
  · rfl

theorem C3_preflight_drop_not_retried {α : Type} (sendQueueMaxRetries : Nat)
    (meta : SendMetaM) (steps : Nat → AttemptStep α) (now : Nat)
    (recent : List (Str × Nat)) (r : Str)
    (hr : r = s2l "dispatch_id_mismatch" ∨ r = s2l "dispatch_aborted")
    (hpre : (steps 1).preflightErr = some r) :
    sendWithRetry sendQueueMaxRetries meta steps now recent =
      (SendResult.thrown r false, [SendEvent.preflightRun 1]) := by
  have hnotR : isRetriableSendError r = false := by
    rcases hr with h | h <;> subst h <;> decide
  obtain ⟨f, hf⟩ : ∃ f, Nat.max 1 sendQueueMaxRetries = f + 1 :=
    ⟨Nat.max 1 sendQueueMaxRetries - 1, by
      have h1 : 1 ≤ Nat.max 1 sendQueueMaxRetries := Nat.le_max_left 1 _
      omega⟩
  unfold sendWithRetry
  rw [hf]
  exact sendWithRetryLoop_preflight_drop meta steps now (f + 1) f 1 recent
    [] [] r hpre hnotR (by omega)

/-- Witness for C3: a concrete preflight `dispatch_aborted` drop. -/

theorem C3_preflight_drop_not_retried_witness :
    sendWithRetry (α := Unit) 3
      { action := s2l "send_media", mediaDedupKey := some (s2l "k1") }
      (fun _ => { preflightErr := some (s2l "dispatch_aborted"),
                  ensureErr := none, fnOutcome := Except.ok () })
      1000 [] =
      (SendResult.thrown (s2l "dispatch_aborted") false,
        [SendEvent.preflightRun 1]) :=
  C3_preflight_drop_not_retried 3 _ _ 1000 [] _ (Or.inr rfl) rfl

/-- C8. With `inboundMediaHttpRetries = 0`, exactly one `fetch` attempt is
performed, and if that attempt fails (non-2xx response or exception) the
materialize record for the URL carries `errorCode =
materialize_http_failed` and `retryCount = 0`. -/

theorem C8_http_zero_retries (oracle : Nat → FetchOutcome) (src : Str)
    (hfail : (∃ st n, oracle 1 = FetchOutcome.resp false st n) ∨
      (∃ m, oracle 1 = FetchOutcome.exn m)) :
    (fetchInboundHttpBuffer oracle 0).fetchCalls = 1
    ∧ ∃ rec, (materializeInboundHttpStep oracle (some 0) src).1 = some rec
        ∧ rec.errorCode = some (s2l "materialize_http_failed")
        ∧ rec.retryCount = some 0
        ∧ rec.materialized = false := by
  have hone : ∀ o : Nat → FetchOutcome, (fetchInboundHttpBuffer o 0).fetchCalls = 1 := by
    intro o
    unfold fetchInboundHttpBuffer fetchInboundHttpBufferGo
    cases h : o 1 with
    | resp ok status bodyLen =>
      cases ok <;> simp [h]
      cases bodyLen <;> simp
    | exn m => simp [h]
  refine ⟨hone oracle, ?_⟩
  have hfetch : fetchInboundHttpBuffer oracle 0 =
      { ok := false, bodyLen := none,
        status := (match oracle 1 with
          | FetchOutcome.resp _ st _ => some st
          | FetchOutcome.exn _ => none),
        retryCount := 0,
        errorCode := some (s2l "materialize_http_failed"), fetchCalls := 1 } := by
    unfold fetchInboundHttpBuffer fetchInboundHttpBufferGo
    rcases hfail with ⟨st, n, h⟩ | ⟨m, h⟩ <;> simp [h]
  unfold materializeInboundHttpStep
  simp only [Option.getD, Nat.max_self, hfetch]
  exact ⟨_, rfl, rfl, rfl, rfl⟩

/-- Witness for C8: a single 500 response. -/

theorem C8_http_zero_retries_witness :
    let oracle : Nat → FetchOutcome := fun _ => FetchOutcome.resp false 500 0
    (fetchInboundHttpBuffer oracle 0).fetchCalls = 1
    ∧ ∃ rec, (materializeInboundHttpStep oracle (some 0) (s2l "https://example/x.jpg")).1
          = some rec
        ∧ rec.errorCode = some (s2l "materialize_http_failed")
        ∧ rec.retryCount = some 0
        ∧ rec.materialized = false :=
  C8_http_zero_retries _ _ (Or.inl ⟨500, 0, rfl⟩)

theorem mapGet_mapSet_self {α : Type} (m : List (Str × α)) (k : Str) (v : α) :
    mapGet (mapSet m k v) k = some v := by
  induction m with
  | nil => simp [mapSet, mapGet]
  | cons hd tl ih =>
    obtain ⟨k', v'⟩ := hd
    by_cases hk : k' = k
    · subst hk
      simp [mapSet, mapGet]
    · simp only [mapSet, if_neg hk, mapGet, if_neg hk]
      exact ih

/-- C2 counterexample.  Two identical calls one hour apart, idempotency
enabled, the first body succeeding: the second call does return
`deduped = true` without running its body, but the lifecycle line it
persists carries no `idempotent_replay_skipped` marker — the source writes
that `errorReason` only when the completed record's status is `failed` or
`timeout`, and here it is `succeeded`. -/

theorem C2_idempotent_tasks_counterexample :
    let digest : Str → Str := fun l => l.take 24
    let ctx : TaskCtx :=
      { route := s2l "user:1001", msgId := s2l "777", dispatchId := none,
        taskKind := s2l "agent_turn", payloadSummary := some (s2l "p") }
    let g : TaskGuardrails :=
      { taskMaxRuntimeMs := 120000, taskMaxRetries := 1,
        taskMaxConcurrency := 1, taskIdempotencyEnabled := true }
    let run : Nat → Except Str (Option Str) := fun _ => Except.ok none
    let first := enqueueRouteTaskAndRun digest ctx g run [] 1000
    let second := enqueueRouteTask digest ctx g first.2.completed 3601000
    first.1.deduped = false ∧ first.2.bodyRuns = 1
    ∧ second.deduped = true ∧ second.scheduledBody = false
    ∧ second.records.length = 1
    ∧ second.records.all
        (fun r => r.errorReason ≠ some (s2l "idempotent_replay_skipped")) := by
  decide

/-- C2 (amended).  For two calls with identical
`(route, msgId, taskKind, payloadSummary)` within 24 h, idempotency
enabled, where the first call's body has completed successfully before the
second call arrives: the body runs exactly once; the second call returns
the same `taskKey` with `deduped = true` and does not run its body; the
lifecycle line it persists replays the completed status — it carries
`errorReason = idempotent_replay_skipped` only when that status is `failed`
or `timeout`, hence not here (status `succeeded`, `errorReason` empty). -/

theorem C2_idempotent_tasks_amended (digest : Str → Str) (ctx : TaskCtx)
    (g : TaskGuardrails) (run : Nat → Except Str (Option Str))
    (rs : Option Str) (completed0 : CompletedMap) (t1 t2 : Nat)
    (hidem : g.taskIdempotencyEnabled = true)
    (habsent : mapGet completed0 (makeTaskKey digest ctx.route ctx.msgId
      ctx.taskKind (ctx.payloadSummary.getD [])) = none)
    (hrun : run 0 = Except.ok rs)
    (h24 : t2 - t1 < 24 * 60 * 60 * 1000) :
    let first := enqueueRouteTaskAndRun digest ctx g run completed0 t1
    let second := enqueueRouteTask digest ctx g first.2.completed t2
    first.1.deduped = false ∧ first.2.bodyRuns = 1
    ∧ second.taskKey = first.1.taskKey ∧ second.deduped = true
    ∧ second.scheduledBody = false
    ∧ second.records = [mkTaskRecord ctx first.1.taskKey TaskStatus.succeeded 0
        none (some ((rs.getD (s2l "ok")).take 280)) t2] := by
  intro first second
  have hfirst : first = (enqueueRouteTask digest ctx g completed0 t1,
      taskBodyLoop ctx (makeTaskKey digest ctx.route ctx.msgId ctx.taskKind
        (ctx.payloadSummary.getD [])) (bounded g.taskMaxRetries 0 5) run
        completed0 t1 (bounded g.taskMaxRetries 0 5 + 1) 0 []) := by
    show enqueueRouteTaskAndRun digest ctx g run completed0 t1 = _
    unfold enqueueRouteTaskAndRun
    simp [enqueueRouteTask, hidem, habsent]
  have henq1 : enqueueRouteTask digest ctx g completed0 t1 =
      { taskKey := makeTaskKey digest ctx.route ctx.msgId ctx.taskKind
          (ctx.payloadSummary.getD []),
        deduped := false,
        records := [mkTaskRecord ctx (makeTaskKey digest ctx.route ctx.msgId
          ctx.taskKind (ctx.payloadSummary.getD [])) TaskStatus.queued 0 none none t1],
        scheduledBody := true } := by
    simp [enqueueRouteTask, hidem, habsent]
  have hbody : first.2 =
      { records := [mkTaskRecord ctx (makeTaskKey digest ctx.route ctx.msgId
            ctx.taskKind (ctx.payloadSummary.getD [])) TaskStatus.running 0 none none t1,
          mkTaskRecord ctx (makeTaskKey digest ctx.route ctx.msgId ctx.taskKind
            (ctx.payloadSummary.getD [])) TaskStatus.succeeded 0 none
            (some ((rs.getD (s2l "ok")).take 280)) t1],
        completed := mapSet completed0 (makeTaskKey digest ctx.route ctx.msgId
          ctx.taskKind (ctx.payloadSummary.getD []))
          { status := TaskStatus.succeeded, atMs := t1,
            resultSummary := some ((rs.getD (s2l "ok")).take 280) },
        bodyRuns := 1, onFailedWith := none } := by
    rw [hfirst]
    show taskBodyLoop _ _ _ _ _ _ (bounded g.taskMaxRetries 0 5 + 1) 0 [] = _
    rw [taskBodyLoop]
    simp only [hrun, List.nil_append]
  have hsecond : second = enqueueRouteTask digest ctx g first.2.completed t2 := rfl
  refine ⟨by rw [hfirst, henq1], by rw [hbody], ?_, ?_, ?_, ?_⟩ <;>
    rw [hsecond, hbody] <;>
    simp only [enqueueRouteTask, hidem, mapGet_mapSet_self] <;>
    simp [h24, hfirst, henq1, mkTaskRecord]

/-- Witness for the amended C2 theorem. -/

theorem C2_idempotent_tasks_amended_witness :
    let digest : Str → Str := fun l => l.take 24
    let ctx : TaskCtx :=
      { route := s2l "user:1001", msgId := s2l "777", dispatchId := none,
        taskKind := s2l "agent_turn", payloadSummary := some (s2l "p") }
    let g : TaskGuardrails :=
      { taskMaxRuntimeMs := 120000, taskMaxRetries := 1,
        taskMaxConcurrency := 1, taskIdempotencyEnabled := true }
    let run : Nat → Except Str (Option Str) := fun _ => Except.ok (some (s2l "done"))
    let first := enqueueRouteTaskAndRun digest ctx g run [] 5000
    let second := enqueueRouteTask digest ctx g first.2.completed 65000
    first.1.deduped = false ∧ first.2.bodyRuns = 1
    ∧ second.taskKey = first.1.taskKey ∧ second.deduped = true
    ∧ second.scheduledBody = false
    ∧ second.records = [mkTaskRecord ctx first.1.taskKey TaskStatus.succeeded 0
        none (some ((some (s2l "done") |>.getD (s2l "ok")).take 280)) 65000] :=
  C2_idempotent_tasks_amended _ _ _ _ _ _ 5000 65000 rfl (by decide) rfl (by decide)

theorem textChunksLoop_length_le (ml : Nat) :
    ∀ fuel l c, c ∈ textChunksLoop ml fuel l → c.length ≤ ml := by
  intro fuel
  induction fuel with
  | zero => intro l c h; simp [textChunksLoop] at h
  | succ f ih =>
    intro l c h
    rw [textChunksLoop] at h
    by_cases hl : l = []
    · rw [if_pos hl] at h; simp at h
    · rw [if_neg hl] at h
      rcases List.mem_cons.mp h with rfl | hmem
      · simp only [List.length_take]
        exact Nat.min_le_left ml l.length
      · exact ih _ _ hmem

/-- C9 counterexample.  With split-send requested and a text of two
non-empty lines, `normalizeReplyPayload` emits one chunk per line with no
length cap: with `maxMessageLength = 5` the first emitted chunk has length
8.  (The split path never consults `maxMessageLength`, so the same holds at
the default 4000 for a line longer than 4000 characters.) -/

theorem C9_chunk_bound_counterexample :
    let normalized := normalizeReplyPayload
      { text := some (s2l "aaaaaaaa\nbb"), mediaUrl := none,
        mediaUrls := none, files := none }
      { formatMarkdown := false, antiRiskMode := false }
      { splitSendRequested := true, maxMessageLength := some 5 }
    normalized.textChunks = [s2l "aaaaaaaa", s2l "bb"]
    ∧ (normalized.textChunks.any (fun c => 5 < c.length)) = true := by
  decide

/-- C9 (amended).  When the split-send line path is not taken (split-send
not requested), every text chunk produced by `normalizeReplyPayload` has
length at most the effective `maxMessageLength`
(`Math.max(1, opts.maxMessageLength ?? 4000)`); when split-send is
requested and the text has 2–12 non-empty lines, the chunks are the trimmed
lines themselves, with no length cap. -/

theorem C9_chunk_bound_amended (payload : QQReplyPayload)
    (config : OutboundConfig) (opts : NormalizeOpts)
    (hsplit : opts.splitSendRequested = false) :
    ∀ c ∈ (normalizeReplyPayload payload config opts).textChunks,
      c.length ≤ Nat.max 1 (opts.maxMessageLength.getD 4000) := by
  intro c hc
  have heq : (normalizeReplyPayload payload config opts).textChunks =
      buildTextChunks opts.splitSendRequested
        (Nat.max 1 (opts.maxMessageLength.getD 4000))
        (replyTextPipeline payload config) := by
    unfold normalizeReplyPayload
    simp only []
  rw [heq, hsplit] at hc
  unfold buildTextChunks at hc
  split at hc
  · simp at hc
  · exact textChunksLoop_length_le _ _ _ _ hc

/-- Witness for the amended C9 theorem. -/

theorem C9_chunk_bound_amended_witness :
    ((normalizeReplyPayload
      { text := some (s2l "hello world"), mediaUrl := none,
        mediaUrls := none, files := none }
      { formatMarkdown := false, antiRiskMode := false }
      { splitSendRequested := false, maxMessageLength := none }).textChunks.all
        (fun c => c.length ≤ Nat.max 1 ((none : Option Nat).getD 4000))) = true := by
  have h := C9_chunk_bound_amended
    { text := some (s2l "hello world"), mediaUrl := none,
      mediaUrls := none, files := none }
    { formatMarkdown := false, antiRiskMode := false }
    { splitSendRequested := false, maxMessageLength := none } rfl
  exact List.all_eq_true.mpr (fun c hc => decide_eq_true (h c hc))

/-- C5. Once `shouldRunNow` reports a cron target due at `t1` and the
returned bucket patch is recorded in the target state, every later tick
whose `YYYYMMDDHHMM` bucket (in the schedule's timezone) equals the
recorded one reports not due — the same cron minute never fires twice. -/

theorem C5_cron_bucket_single_fire (localTable : Nat → CivilMin) (expr : Str)
    (tz : Option Str) (state : TargetState) (t1 t2 : Nat) (patch : DuePatch)
    (h1 : shouldRunNow localTable (CronSchedule.cron expr tz) state t1 = (true, patch))
    (hb : cronBucket (localDateInTz localTable t2 tz) =
      cronBucket (localDateInTz localTable t1 tz)) :
    (shouldRunNow localTable (CronSchedule.cron expr tz)
      (applyDuePatch state patch) t2).1 = false := by
  simp only [shouldRunNow] at h1 ⊢
  by_cases hc : state.lastCronBucket =
      some (cronBucket (localDateInTz localTable t1 tz))
  · rw [if_pos hc] at h1
    exact absurd h1 (by simp)
  · rw [if_neg hc] at h1
    by_cases hm : matchesCron expr (localDateInTz localTable t1 tz) = true
    · rw [if_pos hm] at h1
      have hp : DuePatch.mk none
          (some (cronBucket (localDateInTz localTable t1 tz))) = patch :=
        ((Prod.mk.injEq _ _ _ _).mp h1).2
      have hlcb : (applyDuePatch state patch).lastCronBucket =
          some (cronBucket (localDateInTz localTable t1 tz)) := by
        rw [← hp]; simp [applyDuePatch]
      rw [hb, if_pos hlcb]
    · rw [if_neg hm] at h1
      exact absurd h1 (by simp)

/-- Witness for C5: two ticks 30 s apart in the UTC minute 2024-01-01
10:00, cron `*/30 9-22 * * *`. -/

theorem C5_cron_bucket_single_fire_witness :
    let localTable : Nat → CivilMin := fun _ => civilOfMs 0
    let expr := s2l "*/30 9-22 * * *"
    let state : TargetState :=
      { lastTriggeredAtMs := 0, lastSentAtMs := 0, nextEligibleAtMs := 0,
        lastInboundAtMs := 0, lastOutboundAtMs := 0, lastRunResult := s2l "idle",
        lastSkipReason := none, lastError := none, atDone := false,
        lastCronBucket := none }
    (shouldRunNow localTable (CronSchedule.cron expr none)
      (applyDuePatch state
        (shouldRunNow localTable (CronSchedule.cron expr none) state 1704103200000).2)
      1704103230000).1 = false :=
  C5_cron_bucket_single_fire _ _ none _ 1704103200000 1704103230000 _
    (by decide) (by decide)

/-- C4 counterexample.  Cron target due at 10:00 UTC, smart throttle at its
defaults, last inbound 5 minutes before the tick: the reconcile pass skips,
but with `lastSkipReason = "silence_not_reached"` (5 min < the 30-min
minimum-silence guard, which is checked before the active-conversation
guard), not `"active_conversation"` as the claim states. -/

theorem C4_smart_skip_counterexample :
    let r := reconcileTargetStep (fun _ => civilOfMs 0)
      (CronSchedule.cron (s2l "*/30 9-22 * * *") none)
      { enabled := some true, minSilenceMinutes := none,
        activeConversationMinutes := none, randomIntervalMinMinutes := none,
        randomIntervalMaxMinutes := none }
      { lastInboundAtMs := 1704102900000, lastOutboundAtMs := 1704102900000 }
      { lastTriggeredAtMs := 0, lastSentAtMs := 0, nextEligibleAtMs := 0,
        lastInboundAtMs := 0, lastOutboundAtMs := 0, lastRunResult := s2l "idle",
        lastSkipReason := none, lastError := none, atDone := false,
        lastCronBucket := none }
      1704103200000 0 (TriggerOutcome.ok [])
    r.state.lastRunResult = s2l "skipped"
    ∧ r.state.lastSkipReason = some (s2l "silence_not_reached")
    ∧ ¬r.state.lastSkipReason = some (s2l "active_conversation")
    ∧ r.agentInvoked = false
    ∧ r.record = some
        { triggered := true, produced := false, skipped := true,
          note := s2l "skip:silence_not_reached" } := by
  decide

/-- C4 (amended).  For a due automation target with smart throttle enabled
at its defaults and the last inbound 5 minutes before the tick, the
reconcile pass skips the target with `lastRunResult = "skipped"` and
`lastSkipReason = "silence_not_reached"` (the minimum-silence guard fires
first; `active_conversation` would require the last inbound to be at least
`minSilenceMinutes` old), invokes no agent turn, and appends a state line
noting `skip:silence_not_reached`. -/

theorem C4_smart_skip_amended (localTable : Nat → CivilMin)
    (schedule : CronSchedule) (smart : SmartConfig) (times : RouteRecentTimes)
    (prevState : TargetState) (nowMs draw : Nat) (trigger : TriggerOutcome)
    (hdue : (shouldRunNow localTable schedule prevState nowMs).1 = true)
    (hen : ¬smart.enabled = some false)
    (hmin : smart.minSilenceMinutes = none)
    (hinb : times.lastInboundAtMs + 300000 = nowMs)
    (hpos : 0 < times.lastInboundAtMs) :
    let r := reconcileTargetStep localTable schedule smart times prevState
      nowMs draw trigger
    r.state.lastRunResult = s2l "skipped"
    ∧ r.state.lastSkipReason = some (s2l "silence_not_reached")
    ∧ r.agentInvoked = false
    ∧ r.record = some
        { triggered := true, produced := false, skipped := true,
          note := s2l "skip:silence_not_reached" } := by
  have hskip : ∀ base, smartSkipReason smart times base nowMs draw =
      (some (s2l "silence_not_reached"), base) := by
    intro base
    unfold smartSkipReason
    rw [if_neg hen]
    have h0 : ¬times.lastInboundAtMs = 0 := by omega
    rw [if_neg h0]
    have hsil : nowMs - times.lastInboundAtMs <
        Nat.max 1 (jsOrD smart.minSilenceMinutes 30) * 60000 := by
      rw [hmin]
      have h30 : Nat.max 1 (jsOrD none 30) = 30 := rfl
      rw [h30]
      omega
    rw [if_pos hsil]
  dsimp only []
  unfold reconcileTargetStep
  simp only [hdue, Bool.true_eq_false, if_false, hskip]
  exact ⟨trivial, trivial, trivial, by decide⟩

/-- Witness for the amended C4 theorem at the counterexample's inputs. -/

theorem C4_smart_skip_amended_witness :
    let r := reconcileTargetStep (fun _ => civilOfMs 0)
      (CronSchedule.cron (s2l "*/30 9-22 * * *") none)
      { enabled := none, minSilenceMinutes := none,
        activeConversationMinutes := none, randomIntervalMinMinutes := none,
        randomIntervalMaxMinutes := none }
      { lastInboundAtMs := 1704102900000, lastOutboundAtMs := 1704102900000 }
      { lastTriggeredAtMs := 0, lastSentAtMs := 0, nextEligibleAtMs := 0,
        lastInboundAtMs := 0, lastOutboundAtMs := 0, lastRunResult := s2l "idle",
        lastSkipReason := none, lastError := none, atDone := false,
        lastCronBucket := none }
      1704103200000 0 (TriggerOutcome.ok [])
    r.state.lastRunResult = s2l "skipped"
    ∧ r.state.lastSkipReason = some (s2l "silence_not_reached")
    ∧ r.agentInvoked = false
    ∧ r.record = some
        { triggered := true, produced := false, skipped := true,
          note := s2l "skip:silence_not_reached" } :=
  C4_smart_skip_amended _ _ _ _ _ 1704103200000 0 _ (by decide) (by decide)
    rfl (by decide) (by decide)

/-! ### String lemmas for the routing round-trip laws -/

theorem dropWhile_eq_self_of_head (p : Char → Bool) (l : Str)
    (h : ∀ hne : l ≠ [], p (l.head hne) = false) : l.dropWhile p = l := by
  cases l with
  | nil => rfl
  | cons c rest =>
    have hc := h (by simp)
    rw [List.head_cons] at hc
    rw [List.dropWhile_cons, hc]
    simp

theorem head_not_of_dropWhile_eq_self (p : Char → Bool) (l : Str)
    (h : l.dropWhile p = l) : ∀ hne : l ≠ [], p (l.head hne) = false := by
  cases l with
  | nil => intro hne; exact absurd rfl hne
  | cons c rest =>
    intro _
    rw [List.dropWhile_cons] at h
    by_cases hp : p c = true
    · rw [if_pos hp] at h
      have hlen : (rest.dropWhile p).length ≤ rest.length :=
        (List.dropWhile_suffix p).length_le
      rw [h] at hlen
      simp at hlen
    · rw [List.head_cons]
      simpa using hp

theorem trimStr_eq_self (l : Str)
    (hh : ∀ hne : l ≠ [], isSpaceChar (l.head hne) = false)
    (hr : ∀ hne : l.reverse ≠ [], isSpaceChar (l.reverse.head hne) = false) :
    trimStr l = l := by
  unfold trimStr
  rw [dropWhile_eq_self_of_head _ _ hh, dropWhile_eq_self_of_head _ _ hr,
    List.reverse_reverse]

theorem trimStr_isPrefixPart (l : Str) :
    ∃ t, l.dropWhile isSpaceChar = trimStr l ++ t := by
  obtain ⟨s, hs⟩ := List.dropWhile_suffix
    (l := (l.dropWhile isSpaceChar).reverse) (p := isSpaceChar)
  refine ⟨s.reverse, ?_⟩
  unfold trimStr
  calc l.dropWhile isSpaceChar
      = ((l.dropWhile isSpaceChar).reverse).reverse := by rw [List.reverse_reverse]
    _ = (s ++ ((l.dropWhile isSpaceChar).reverse).dropWhile isSpaceChar).reverse := by
        rw [hs]
    _ = (((l.dropWhile isSpaceChar).reverse).dropWhile isSpaceChar).reverse ++
        s.reverse := by rw [List.reverse_append]

theorem dropWhile_idem (p : Char → Bool) (l : Str) :
    (l.dropWhile p).dropWhile p = l.dropWhile p := by
  induction l with
  | nil => rfl
  | cons c rest ih =>
    rw [List.dropWhile_cons]
    by_cases hp : p c = true
    · rw [if_pos hp]; exact ih
    · rw [if_neg hp, List.dropWhile_cons, if_neg hp]

theorem head_eq_of_eq_cons {l : Str} {a : Char} {t : Str} (h : l = a :: t) :
    ∀ hne : l ≠ [], l.head hne = a := by
  subst h; intro _; rfl

theorem dropWhile_trimStr (l : Str) :
    (trimStr l).dropWhile isSpaceChar = trimStr l := by
  obtain ⟨t, ht⟩ := trimStr_isPrefixPart l
  cases htr : trimStr l with
  | nil => rfl
  | cons a rest =>
    have hd : l.dropWhile isSpaceChar = a :: (rest ++ t) := by
      rw [ht, htr, List.cons_append]
    have h2 : (a :: (rest ++ t)).dropWhile isSpaceChar = a :: (rest ++ t) := by
      rw [← hd]; exact dropWhile_idem _ l
    have hna := head_not_of_dropWhile_eq_self _ _ h2 (by simp)
    simp only [List.head_cons] at hna
    apply dropWhile_eq_self_of_head
    intro _
    simpa using hna

theorem reverse_trimStr_eq (l : Str) :
    (trimStr l).reverse = ((l.dropWhile isSpaceChar).reverse).dropWhile isSpaceChar := by
  unfold trimStr
  rw [List.reverse_reverse]

theorem dropWhile_reverse_trimStr (l : Str) :
    (trimStr l).reverse.dropWhile isSpaceChar = (trimStr l).reverse := by
  rw [reverse_trimStr_eq]
  exact dropWhile_idem _ _

theorem trimStr_idem (l : Str) : trimStr (trimStr l) = trimStr l := by
  calc trimStr (trimStr l)
      = (((trimStr l).dropWhile isSpaceChar).reverse.dropWhile isSpaceChar).reverse :=
        rfl
    _ = ((trimStr l).reverse.dropWhile isSpaceChar).reverse := by
        rw [dropWhile_trimStr]
    _ = ((trimStr l).reverse).reverse := by rw [dropWhile_reverse_trimStr]
    _ = trimStr l := List.reverse_reverse _

theorem revhead_not_of_trim_fixed (x : Str) (hfix : trimStr x = x) :
    ∀ hne : x.reverse ≠ [], isSpaceChar (x.reverse.head hne) = false := by
  have h1 : x.reverse.dropWhile isSpaceChar = x.reverse := by
    conv_lhs => rw [← hfix]
    rw [dropWhile_reverse_trimStr, hfix]
  exact head_not_of_dropWhile_eq_self _ _ h1

theorem trimStr_suffix_fixed (p out : Str)
    (hfix : trimStr (p ++ out) = p ++ out)
    (hhead : ∀ hne : out ≠ [], isSpaceChar (out.head hne) = false) :
    trimStr out = out := by
  apply trimStr_eq_self _ hhead
  intro hne
  obtain ⟨a, t, hor⟩ := List.exists_cons_of_ne_nil hne
  have h1 : (p ++ out).reverse = a :: (t ++ p.reverse) := by
    rw [List.reverse_append, hor, List.cons_append]
  have hne2 : (p ++ out).reverse ≠ [] := by rw [h1]; simp
  have h2 := revhead_not_of_trim_fixed _ hfix hne2
  rw [head_eq_of_eq_cons h1 hne2] at h2
  rw [head_eq_of_eq_cons hor hne]
  exact h2

theorem toNat_Char_ofNat_of_lt (n : Nat) (h : n < 55296) :
    (Char.ofNat n).toNat = n := by
  have hv : n.isValidChar := Or.inl h
  unfold Char.ofNat
  rw [dif_pos hv]
  rfl

theorem toLowerChar_eq_self_of_not_upper (c : Char)
    (h : ¬(65 ≤ c.toNat ∧ c.toNat ≤ 90)) : toLowerChar c = c := by
  unfold toLowerChar
  rw [if_neg h]

theorem toNat_toLowerChar_of_upper (c : Char)
    (h : 65 ≤ c.toNat ∧ c.toNat ≤ 90) : (toLowerChar c).toNat = c.toNat + 32 := by
  unfold toLowerChar
  rw [if_pos h]
  exact toNat_Char_ofNat_of_lt _ (by omega)

theorem isSpaceChar_toLowerChar (c : Char) :
    isSpaceChar (toLowerChar c) = isSpaceChar c := by
  by_cases h : 65 ≤ c.toNat ∧ c.toNat ≤ 90
  · have h1 := toNat_toLowerChar_of_upper c h
    simp only [isSpaceChar, h1]
    have : ∀ m : Nat, 65 ≤ m → m ≤ 90 →
        ((decide (m + 32 = 32) || decide (m + 32 = 9) || decide (m + 32 = 10) ||
          decide (m + 32 = 13) || decide (m + 32 = 11) || decide (m + 32 = 12) ||
          decide (m + 32 = 160)) =
        (decide (m = 32) || decide (m = 9) || decide (m = 10) ||
          decide (m = 13) || decide (m = 11) || decide (m = 12) ||
          decide (m = 160))) := by
      intro m h1 h2
      have e1 : decide (m + 32 = 32) = false := by simp only [decide_eq_false_iff_not]; omega
      have e2 : decide (m + 32 = 9) = false := by simp only [decide_eq_false_iff_not]; omega
      have e3 : decide (m + 32 = 10) = false := by simp only [decide_eq_false_iff_not]; omega
      have e4 : decide (m + 32 = 13) = false := by simp only [decide_eq_false_iff_not]; omega
      have e5 : decide (m + 32 = 11) = false := by simp only [decide_eq_false_iff_not]; omega
      have e6 : decide (m + 32 = 12) = false := by simp only [decide_eq_false_iff_not]; omega
      have e7 : decide (m + 32 = 160) = false := by simp only [decide_eq_false_iff_not]; omega
      have f1 : decide (m = 32) = false := by simp only [decide_eq_false_iff_not]; omega
      have f2 : decide (m = 9) = false := by simp only [decide_eq_false_iff_not]; omega
      have f3 : decide (m = 10) = false := by simp only [decide_eq_false_iff_not]; omega
      have f4 : decide (m = 13) = false := by simp only [decide_eq_false_iff_not]; omega
      have f5 : decide (m = 11) = false := by simp only [decide_eq_false_iff_not]; omega
      have f6 : decide (m = 12) = false := by simp only [decide_eq_false_iff_not]; omega
      have f7 : decide (m = 160) = false := by simp only [decide_eq_false_iff_not]; omega
      rw [e1, e2, e3, e4, e5, e6, e7, f1, f2, f3, f4, f5, f6, f7]
    exact this c.toNat h.1 h.2
  · rw [toLowerChar_eq_self_of_not_upper c h]

theorem toLowerChar_idem (c : Char) :
    toLowerChar (toLowerChar c) = toLowerChar c := by
  by_cases h : 65 ≤ c.toNat ∧ c.toNat ≤ 90
  · have h1 := toNat_toLowerChar_of_upper c h
    apply toLowerChar_eq_self_of_not_upper
    omega
  · rw [toLowerChar_eq_self_of_not_upper c h,
      toLowerChar_eq_self_of_not_upper c h]

theorem toLower_idem (l : Str) : toLower (toLower l) = toLower l := by
  unfold toLower
  rw [List.map_map]
  apply List.map_congr_left
  intro c _
  exact toLowerChar_idem c

theorem trimStr_toLower (l : Str) :
    trimStr (toLower l) = toLower (trimStr l) := by
  have hcomp : (isSpaceChar ∘ toLowerChar) = isSpaceChar := by
    funext c
    exact isSpaceChar_toLowerChar c
  unfold trimStr toLower
  rw [List.dropWhile_map, hcomp, ← List.map_reverse, List.dropWhile_map, hcomp,
    ← List.map_reverse]

theorem toLower_suffix_fixed (p out : Str)
    (h : toLower (p ++ out) = p ++ out) : toLower out = out := by
  unfold toLower at h ⊢
  rw [List.map_append] at h
  exact (List.append_inj h (by simp)).2

theorem isSpaceChar_false_of_digit (c : Char) (h : isDigitChar c = true) :
    isSpaceChar c = false := by
  simp only [isDigitChar, Bool.and_eq_true, decide_eq_true_eq] at h
  simp only [isSpaceChar, Bool.or_eq_false_iff, decide_eq_false_iff_not]
  omega

theorem toLowerChar_of_digit (c : Char) (h : isDigitChar c = true) :
    toLowerChar c = c := by
  simp only [isDigitChar, Bool.and_eq_true, decide_eq_true_eq] at h
  exact toLowerChar_eq_self_of_not_upper c (by omega)

theorem toLower_of_digits (ds : Str) (h : ds.all isDigitChar = true) :
    toLower ds = ds := by
  unfold toLower
  rw [List.map_congr_left (fun c hc => toLowerChar_of_digit c
    (List.all_eq_true.mp h c hc))]
  exact List.map_id ds

theorem digits512_all (ds : Str) (h : digits512 ds = true) :
    ds.all isDigitChar = true := by
  simp only [digits512, Bool.and_eq_true] at h
  exact h.1.1

theorem digits512_ne_nil (ds : Str) (h : digits512 ds = true) : ds ≠ [] := by
  simp only [digits512, Bool.and_eq_true, decide_eq_true_eq] at h
  intro he
  subst he
  simp at h

theorem startsWithStr_eq_append (l p : Str) (h : startsWithStr l p = true) :
    l = p ++ l.drop p.length := by
  induction p generalizing l with
  | nil => simp
  | cons n ns ih =>
    cases l with
    | nil => simp [startsWithStr] at h
    | cons c cs =>
      simp only [startsWithStr, Bool.and_eq_true, decide_eq_true_eq] at h
      obtain ⟨rfl, h2⟩ := h
      simpa using ih cs h2

theorem normalizeTarget_fixed_of (out : Str) (hne : out ≠ [])
    (htrim : trimStr out = out) (hstrip : stripQQ out = out)
    (hchan : channelResult (toLower out) = none)
    (hsess : sessionResult (toLower out) = none)
    (hpriv : privateResult (toLower out) = none)
    (hdig : digits512 (toLower out) = false)
    (hmatch : (matchUserRoute (toLower out) || matchGroupRoute (toLower out) ||
        matchGuildRoute (toLower out)) = true → toLower out = out) :
    normalizeTarget out = out := by
  unfold normalizeTarget
  simp only [htrim, hstrip, if_neg hne, hchan, hsess, hpriv, hdig,
    Bool.false_eq_true, if_false]
  by_cases hu : matchUserRoute (toLower out) = true
  · rw [if_pos hu]
    exact hmatch (by simp [hu])
  · rw [if_neg hu]
    by_cases hg : matchGroupRoute (toLower out) = true
    · rw [if_pos hg]
      exact hmatch (by simp [hg])
    · rw [if_neg hg]
      by_cases hgu : matchGuildRoute (toLower out) = true
      · rw [if_pos hgu]
        exact hmatch (by simp [hgu])
      · rw [if_neg hgu]

theorem band_elim {a b : Bool} (h : (a && b) = true) : a = true ∧ b = true := by
  simp at h
  exact h

theorem channelResult_inv (v out : Str) (h : channelResult v = some out) :
    (∃ ds, digits512 ds = true ∧ out = ['u','s','e','r',':'] ++ ds) ∨
    (∃ ds, digits512 ds = true ∧ out = ['g','r','o','u','p',':'] ++ ds) := by
  unfold channelResult at h
  split at h
  · rename_i hcond
    injection h with h'
    exact Or.inl ⟨v.drop 16, (band_elim hcond).2, h'.symm⟩
  · split at h
    · rename_i hcond
      injection h with h'
      exact Or.inr ⟨v.drop 14, (band_elim hcond).2, h'.symm⟩
    · cases h

theorem sessionResult_inv (v out : Str) (h : sessionResult v = some out) :
    (∃ pre, v = pre ++ out) ∧
    (out = ['u','s','e','r'] ∨ out = ['g','r','o','u','p'] ∨
      (∃ t2, out = ['g','u','i','l','d',':'] ++ t2 ∧ ¬t2 = [])) := by
  unfold sessionResult at h
  split at h
  · rename_i hsw
    dsimp only [] at h
    split at h
    · rename_i hro
      injection h with h'
      subst h'
      refine ⟨⟨['s','e','s','s','i','o','n',':','q','q',':'], ?_⟩, ?_⟩
      · exact startsWithStr_eq_append v _ hsw
      · rcases hro with h1 | h1
        · exact Or.inl h1
        · exact Or.inr (Or.inl h1)
    · split at h
      · rename_i hcond
        injection h with h'
        subst h'
        obtain ⟨hsw2, hne2⟩ := band_elim hcond
        refine ⟨⟨['s','e','s','s','i','o','n',':','q','q',':'], ?_⟩,
          Or.inr (Or.inr ⟨(v.drop 11).drop 6, ?_, ?_⟩)⟩
        · exact startsWithStr_eq_append v _ hsw
        · exact startsWithStr_eq_append _ _ hsw2
        · simpa using hne2
      · cases h
  · cases h

theorem privateResult_inv (v out : Str) (h : privateResult v = some out) :
    ∃ ds, digits512 ds = true ∧ out = ['u','s','e','r',':'] ++ ds := by
  unfold privateResult at h
  split at h
  · rename_i hcond
    injection h with h'
    exact ⟨v.drop 8, (band_elim hcond).2, h'.symm⟩
  · cases h

theorem matchUserRoute_inv (v : Str) (h : matchUserRoute v = true) :
    v = ['u','s','e','r',':'] ++ v.drop 5 ∧ digits512 (v.drop 5) = true := by
  obtain ⟨h1, h2⟩ := band_elim h
  exact ⟨startsWithStr_eq_append v _ h1, h2⟩

theorem matchGroupRoute_inv (v : Str) (h : matchGroupRoute v = true) :
    v = ['g','r','o','u','p',':'] ++ v.drop 6 ∧ digits512 (v.drop 6) = true := by
  obtain ⟨h1, h2⟩ := band_elim h
  exact ⟨startsWithStr_eq_append v _ h1, h2⟩

theorem matchGuildRoute_inv (v : Str) (h : matchGuildRoute v = true) :
    v = ['g','u','i','l','d',':'] ++ v.drop 6 ∧ guildTail (v.drop 6) = true := by
  obtain ⟨h1, h2⟩ := band_elim h
  exact ⟨startsWithStr_eq_append v _ h1, h2⟩

theorem trimStr_fix_idroute (pre : Str) (ds : Str) (c0 : Char)
    (hpre : pre ++ ds = c0 :: (pre.drop 1 ++ ds)) (hc0 : isSpaceChar c0 = false)
    (hall : ds.all isDigitChar = true) (hne : ds ≠ []) :
    trimStr (pre ++ ds) = pre ++ ds := by
  apply trimStr_eq_self
  · intro hne1
    rw [head_eq_of_eq_cons hpre hne1]
    exact hc0
  · intro hne1
    obtain ⟨a, t, har⟩ := List.exists_cons_of_ne_nil
      (fun he => hne (List.reverse_eq_nil_iff.mp he))
    have heq : (pre ++ ds).reverse = a :: (t ++ pre.reverse) := by
      rw [List.reverse_append, har, List.cons_append]
    rw [head_eq_of_eq_cons heq hne1]
    have hmem : a ∈ ds := List.mem_reverse.mp (by rw [har]; exact List.mem_cons_self a t)
    exact isSpaceChar_false_of_digit a (List.all_eq_true.mp hall a hmem)

theorem normalizeTarget_fix_user (ds : Str) (h : digits512 ds = true) :
    normalizeTarget (['u','s','e','r',':'] ++ ds) = ['u','s','e','r',':'] ++ ds := by
  have hall := digits512_all ds h
  have hnil := digits512_ne_nil ds h
  have hlow : toLower (['u','s','e','r',':'] ++ ds) = ['u','s','e','r',':'] ++ ds := by
    unfold toLower
    rw [List.map_append]
    have h1 : List.map toLowerChar ['u','s','e','r',':'] = ['u','s','e','r',':'] := by
      decide
    rw [h1]
    have h2 : List.map toLowerChar ds = ds := toLower_of_digits ds hall
    rw [h2]
  apply normalizeTarget_fixed_of
  · simp
  · exact trimStr_fix_idroute _ ds 'u' rfl (by decide) hall hnil
  · rfl
  · rw [hlow]; rfl
  · rw [hlow]; rfl
  · rw [hlow]; rfl
  · rw [hlow]
    show digits512 ('u' :: (['s','e','r',':'] ++ ds)) = false
    rfl
  · intro _
    exact hlow

theorem normalizeTarget_fix_group (ds : Str) (h : digits512 ds = true) :
    normalizeTarget (['g','r','o','u','p',':'] ++ ds) = ['g','r','o','u','p',':'] ++ ds := by
  have hall := digits512_all ds h
  have hnil := digits512_ne_nil ds h
  have hlow : toLower (['g','r','o','u','p',':'] ++ ds) = ['g','r','o','u','p',':'] ++ ds := by
    unfold toLower
    rw [List.map_append]
    have h1 : List.map toLowerChar ['g','r','o','u','p',':'] = ['g','r','o','u','p',':'] := by
      decide
    rw [h1]
    have h2 : List.map toLowerChar ds = ds := toLower_of_digits ds hall
    rw [h2]
  apply normalizeTarget_fixed_of
  · simp
  · exact trimStr_fix_idroute _ ds 'g' rfl (by decide) hall hnil
  · rfl
  · rw [hlow]; rfl
  · rw [hlow]; rfl
  · rw [hlow]; rfl
  · rw [hlow]
    show digits512 ('g' :: (['r','o','u','p',':'] ++ ds)) = false
    rfl
  · intro _
    exact hlow

theorem normalizeTarget_fix_guildish (t2 : Str)
    (htrim : trimStr (['g','u','i','l','d',':'] ++ t2) = ['g','u','i','l','d',':'] ++ t2)
    (hlow : toLower (['g','u','i','l','d',':'] ++ t2) = ['g','u','i','l','d',':'] ++ t2) :
    normalizeTarget (['g','u','i','l','d',':'] ++ t2) = ['g','u','i','l','d',':'] ++ t2 := by
  apply normalizeTarget_fixed_of
  · simp
  · exact htrim
  · rfl
  · rw [hlow]; rfl
  · rw [hlow]; rfl
  · rw [hlow]; rfl
  · rw [hlow]
    show digits512 ('g' :: (['u','i','l','d',':'] ++ t2)) = false
    rfl
  · intro _
    exact hlow

/-- C6 counterexample.  `normalizeTarget` strips only one leading `qq:`
prefix per call, so stacked prefixes make it non-idempotent:
`normalizeTarget "qq:qq:12345" = "qq:12345"`, while a second application
yields `"user:12345"`. -/

theorem C6_normalizeTarget_idem_counterexample :
    normalizeTarget (s2l "qq:qq:12345") = s2l "qq:12345"
    ∧ normalizeTarget (normalizeTarget (s2l "qq:qq:12345")) = s2l "user:12345"
    ∧ ¬normalizeTarget (normalizeTarget (s2l "qq:qq:12345")) =
        normalizeTarget (s2l "qq:qq:12345") := by
  refine ⟨by decide, by decide, by decide⟩

/-- C6 (amended).  `normalizeTarget` is idempotent on every input whose
trimmed form does not itself begin with a (case-insensitive) `qq:` prefix —
equivalently, on which the one-shot prefix strip is a no-op.  (Inputs such
as `"qq:qq:12345"`, where a second `qq:` survives the first call, and
`"qq: 12345"`, where the strip exposes fresh leading whitespace, are the
only violations.) -/

theorem C6_normalizeTarget_idem_amended (x : Str)
    (hq : stripQQ (trimStr x) = trimStr x) :
    normalizeTarget (normalizeTarget x) = normalizeTarget x := by
  by_cases h0 : trimStr x = []
  · have h1 : normalizeTarget x = [] := by
      unfold normalizeTarget
      rw [hq, h0]
      rfl
    rw [h1]
    rfl
  · have htt : trimStr (trimStr x) = trimStr x := trimStr_idem x
    have hvt : trimStr (toLower (trimStr x)) = toLower (trimStr x) := by
      rw [trimStr_toLower, htt]
    have hvlow : toLower (toLower (trimStr x)) = toLower (trimStr x) :=
      toLower_idem _
    cases hch : channelResult (toLower (trimStr x)) with
    | some out =>
      have hNT : normalizeTarget x = out := by
        unfold normalizeTarget
        simp only [hq, if_neg h0, hch]
      rw [hNT]
      rcases channelResult_inv _ _ hch with ⟨ds, hds, rfl⟩ | ⟨ds, hds, rfl⟩
      · exact normalizeTarget_fix_user ds hds
      · exact normalizeTarget_fix_group ds hds
    | none =>
      cases hse : sessionResult (toLower (trimStr x)) with
      | some out =>
        have hNT : normalizeTarget x = out := by
          unfold normalizeTarget
          simp only [hq, if_neg h0, hch, hse]
        rw [hNT]
        obtain ⟨⟨pre, hpre⟩, hshape⟩ := sessionResult_inv _ _ hse
        rcases hshape with rfl | rfl | ⟨t2, rfl, _⟩
        · decide
        · decide
        · have hlowo : toLower (['g','u','i','l','d',':'] ++ t2) =
              ['g','u','i','l','d',':'] ++ t2 := by
            apply toLower_suffix_fixed pre
            rw [← hpre]
            exact hvlow
          have htro : trimStr (['g','u','i','l','d',':'] ++ t2) =
              ['g','u','i','l','d',':'] ++ t2 := by
            apply trimStr_suffix_fixed pre
            · rw [← hpre]
              exact hvt
            · intro hne1
              rw [head_eq_of_eq_cons
                (show (['g','u','i','l','d',':'] ++ t2) =
                  'g' :: (['u','i','l','d',':'] ++ t2) from rfl) hne1]
              decide
          exact normalizeTarget_fix_guildish t2 htro hlowo
      | none =>
        cases hpr : privateResult (toLower (trimStr x)) with
        | some out =>
          have hNT : normalizeTarget x = out := by
            unfold normalizeTarget
            simp only [hq, if_neg h0, hch, hse, hpr]
          rw [hNT]
          obtain ⟨ds, hds, rfl⟩ := privateResult_inv _ _ hpr
          exact normalizeTarget_fix_user ds hds
        | none =>
          by_cases hd : digits512 (toLower (trimStr x)) = true
          · have hNT : normalizeTarget x =
                ['u','s','e','r',':'] ++ toLower (trimStr x) := by
              unfold normalizeTarget
              simp only [hq, if_neg h0, hch, hse, hpr, hd, if_true]
            rw [hNT]
            exact normalizeTarget_fix_user _ hd
          · by_cases hu : matchUserRoute (toLower (trimStr x)) = true
            · have hNT : normalizeTarget x = toLower (trimStr x) := by
                unfold normalizeTarget
                simp only [hq, if_neg h0, hch, hse, hpr, hd, Bool.false_eq_true,
                  if_false, hu, if_true]
              rw [hNT]
              obtain ⟨hsh, hds⟩ := matchUserRoute_inv _ hu
              rw [hsh]
              exact normalizeTarget_fix_user _ hds
            · by_cases hg : matchGroupRoute (toLower (trimStr x)) = true
              · have hNT : normalizeTarget x = toLower (trimStr x) := by
                  unfold normalizeTarget
                  simp only [hq, if_neg h0, hch, hse, hpr, hd, Bool.false_eq_true,
                    if_false, hu, hg, if_true]
                rw [hNT]
                obtain ⟨hsh, hds⟩ := matchGroupRoute_inv _ hg
                rw [hsh]
                exact normalizeTarget_fix_group _ hds
              · by_cases hgu : matchGuildRoute (toLower (trimStr x)) = true
                · have hNT : normalizeTarget x = toLower (trimStr x) := by
                    unfold normalizeTarget
                    simp only [hq, if_neg h0, hch, hse, hpr, hd,
                      Bool.false_eq_true, if_false, hu, hg, hgu, if_true]
                  rw [hNT]
                  obtain ⟨hsh, -⟩ := matchGuildRoute_inv _ hgu
                  rw [hsh]
                  apply normalizeTarget_fix_guildish
                  · rw [← hsh]
                    exact hvt
                  · rw [← hsh]
                    exact hvlow
                · have hNT : normalizeTarget x = trimStr x := by
                    unfold normalizeTarget
                    simp only [hq, if_neg h0, hch, hse, hpr, hd,
                      Bool.false_eq_true, if_false, hu, hg, hgu]
                  rw [hNT]
                  apply normalizeTarget_fixed_of _ h0 htt hq hch hse hpr
                    (by simpa using hd)
                  intro habs
                  simp only [Bool.or_eq_true] at habs
                  rcases habs with (h | h) | h
                  · exact absurd h hu
                  · exact absurd h hg
                  · exact absurd h hgu

/-- Witness for the amended C6 theorem at `"  USER:123456 "` (mixed case,
surrounding whitespace, no `qq:` prefix). -/

theorem C6_normalizeTarget_idem_amended_witness :
    normalizeTarget (normalizeTarget (s2l "  USER:123456 ")) =
      normalizeTarget (s2l "  USER:123456 ") :=
  C6_normalizeTarget_idem_amended _ (by decide)

/-! ### Decimal render/parse round trip (`parseInt` and `${n}`) -/

theorem revDigsGo_eq_digits (fuel n : Nat) (h : n ≤ fuel) :
    revDigsGo fuel n = Nat.digits 10 n := by
  induction fuel generalizing n with
  | zero =>
    have : n = 0 := Nat.le_zero.mp h
    subst this
    simp [revDigsGo]
  | succ f ih =>
    by_cases hn : n = 0
    · subst hn
      simp [revDigsGo]
    · rw [revDigsGo, if_neg hn, ih (n / 10) (by omega),
        ← Nat.digits_def' (by norm_num : 1 < 10) (Nat.pos_of_ne_zero hn)]

theorem parseDec_foldl (ds : Str) : ∀ a : Nat,
    ds.foldl (fun acc c => 10 * acc + (c.toNat - 48)) a =
      a * 10 ^ ds.length +
        Nat.ofDigits 10 ((ds.map (fun c => c.toNat - 48)).reverse) := by
  induction ds with
  | nil => intro a; simp
  | cons c rest ih =>
    intro a
    rw [List.foldl_cons, ih]
    rw [List.map_cons, List.reverse_cons, Nat.ofDigits_append]
    simp only [Nat.ofDigits_singleton, List.length_reverse, List.length_map,
      List.length_cons]
    ring

theorem parseDec_eq_ofDigits (ds : Str) :
    parseDec ds = Nat.ofDigits 10 ((ds.map (fun c => c.toNat - 48)).reverse) := by
  unfold parseDec
  rw [parseDec_foldl ds 0]
  simp

theorem digitChar_digitVal (c : Char) (h : isDigitChar c = true) :
    digitChar (c.toNat - 48) = c := by
  simp only [isDigitChar, Bool.and_eq_true, decide_eq_true_eq] at h
  unfold digitChar
  have he : 48 + (c.toNat - 48) = c.toNat := by omega
  rw [he]
  have hv : (c.toNat).isValidChar := Or.inl (by omega)
  unfold Char.ofNat
  rw [dif_pos hv]
  apply Char.ext
  apply UInt32.ext
  rfl

theorem digitVal_ne_zero (c : Char) (h : isDigitChar c = true) (h0 : ¬c = '0') :
    ¬c.toNat - 48 = 0 := by
  simp only [isDigitChar, Bool.and_eq_true, decide_eq_true_eq] at h
  intro he
  apply h0
  have : c.toNat = 48 := by omega
  have hval : c.val = (48 : UInt32) := by
    apply UInt32.ext
    simpa [Char.toNat] using this
  exact Char.ext hval

theorem natToStr_parseDec (ds : Str) (hall : ds.all isDigitChar = true)
    (hne : ds ≠ []) (hlz : ∀ hne' : ds ≠ [], ¬ds.head hne' = '0') :
    natToStr (parseDec ds) = ds := by
  obtain ⟨d, t, rfl⟩ := List.exists_cons_of_ne_nil hne
  have hd : isDigitChar d = true := List.all_eq_true.mp hall d (List.mem_cons_self d t)
  have hd0 : ¬d = '0' := by
    have := hlz (by simp)
    simpa using this
  have hlt : ∀ l ∈ ((d :: t).map (fun c => c.toNat - 48)).reverse, l < 10 := by
    intro l hl
    rw [List.mem_reverse, List.mem_map] at hl
    obtain ⟨c, hc, rfl⟩ := hl
    have := List.all_eq_true.mp hall c hc
    simp only [isDigitChar, Bool.and_eq_true, decide_eq_true_eq] at this
    omega
  have hlast : ∀ h : ((d :: t).map (fun c => c.toNat - 48)).reverse ≠ [],
      (((d :: t).map (fun c => c.toNat - 48)).reverse).getLast h ≠ 0 := by
    intro h
    have hsh : ((d :: t).map (fun c => c.toNat - 48)).reverse =
        (t.map (fun c => c.toNat - 48)).reverse ++ [d.toNat - 48] := by
      rw [List.map_cons, List.reverse_cons]
    rw [List.getLast_congr _ _ hsh, List.getLast_concat]
    exact digitVal_ne_zero d hd hd0
  have hdig : Nat.digits 10 (parseDec (d :: t)) =
      ((d :: t).map (fun c => c.toNat - 48)).reverse := by
    rw [parseDec_eq_ofDigits]
    exact Nat.digits_ofDigits 10 (by norm_num) _ hlt hlast
  have hne0 : ¬parseDec (d :: t) = 0 := by
    intro he
    rw [he] at hdig
    simp at hdig
  unfold natToStr
  rw [if_neg hne0,
    revDigsGo_eq_digits (parseDec (d :: t)) (parseDec (d :: t)) le_rfl, hdig,
    ← List.map_reverse, List.reverse_reverse]
  rw [List.map_map]
  have hcongr : ∀ c ∈ (d :: t), (digitChar ∘ fun c => c.toNat - 48) c = id c :=
    fun c hc => digitChar_digitVal c (List.all_eq_true.mp hall c hc)
  rw [List.map_congr_left hcongr, List.map_id]

theorem safeGuildChar_ne_colon (c : Char) (h : safeGuildChar c = true) :
    ¬c = ':' := by
  intro he
  subst he
  simp [safeGuildChar, isDigitChar] at h

theorem guildTailAux_inv (t : Str) (h : guildTailAux t = true) :
    ∃ p1 p2, t = p1 ++ ':' :: p2 ∧ p1.all safeGuildChar = true ∧ ¬p2 = [] := by
  induction t with
  | nil => simp [guildTailAux] at h
  | cons c rest ih =>
    rw [guildTailAux] at h
    by_cases hc : c = ':'
    · subst hc
      rw [if_pos rfl] at h
      obtain ⟨h1, _⟩ := band_elim h
      exact ⟨[], rest, rfl, rfl, by simpa using h1⟩
    · rw [if_neg hc] at h
      obtain ⟨h1, h2⟩ := band_elim h
      obtain ⟨p1, p2, rfl, hp1, hp2⟩ := ih h2
      exact ⟨c :: p1, p2, rfl, by simp [h1, hp1], hp2⟩

theorem guildTail_inv (t : Str) (h : guildTail t = true) :
    ∃ p1 p2, t = p1 ++ ':' :: p2 ∧ ¬p1 = [] ∧ p1.all safeGuildChar = true ∧
      ¬p2 = [] := by
  cases t with
  | nil => simp [guildTail] at h
  | cons c rest =>
    rw [guildTail] at h
    obtain ⟨h1, h2⟩ := band_elim h
    obtain ⟨p1, p2, rfl, hp1, hp2⟩ := guildTailAux_inv rest h2
    exact ⟨c :: p1, p2, rfl, by simp, by simp [h1, hp1], hp2⟩

theorem takeWhile_append_colon (p1 p2 : Str) (hp1 : p1.all safeGuildChar = true) :
    (p1 ++ ':' :: p2).takeWhile (fun c => ¬c = ':') = p1 := by
  induction p1 with
  | nil => simp [List.takeWhile_cons]
  | cons a rest ih =>
    simp only [List.all_cons, Bool.and_eq_true] at hp1
    have hne := safeGuildChar_ne_colon a hp1.1
    rw [List.cons_append, List.takeWhile_cons, if_pos (by simp [hne]), ih hp1.2]

/-- C7 counterexample.  `"user:01234"` passes `isValidQQRoute`, but
`parseTarget` rebuilds the route through `parseInt`, which drops the
leading zero: the returned route field is `"user:1234" ≠ "user:01234"`. -/

theorem C7_parse_roundtrip_counterexample :
    isValidQQRoute (s2l "user:01234") = true
    ∧ (parseTarget (normalizeTarget (s2l "user:01234"))).map ParsedTarget.route =
        some (s2l "user:1234")
    ∧ ¬(parseTarget (normalizeTarget (s2l "user:01234"))).map ParsedTarget.route =
        some (s2l "user:01234") := by
  refine ⟨by decide, by decide, by decide⟩

/-- C7 (amended).  For every route `r` accepted by `isValidQQRoute` that is
already trimmed, contains no uppercase letters, and (for `user:`/`group:`)
has no leading zero in its id digits, `parseTarget (normalizeTarget r)` is
non-null and its `route` field equals `r`.  (The counterexample shows the
leading-zero failure; surrounding whitespace is trimmed away and uppercase
guild letters are lowercased by `normalizeTarget`, so those escape the
round-trip too.) -/

theorem C7_parse_roundtrip_amended (r : Str)
    (hval : isValidQQRoute r = true)
    (htrim : trimStr r = r)
    (hlow : toLower r = r)
    (hnz : noLeadingZeroId r = true) :
    ∃ t, parseTarget (normalizeTarget r) = some t ∧ ParsedTarget.route t = r := by
  unfold isValidQQRoute at hval
  dsimp only [] at hval
  rw [htrim] at hval
  simp only [Bool.or_eq_true] at hval
  rcases hval with (hu | hg) | hgu
  · obtain ⟨hsh, hds⟩ := matchUserRoute_inv r hu
    have hfix : normalizeTarget r = r := by
      rw [hsh]
      exact normalizeTarget_fix_user _ hds
    have hall := digits512_all _ hds
    have hne := digits512_ne_nil _ hds
    have hhead : ∀ hne' : (r.drop 5) ≠ [], ¬(r.drop 5).head hne' = '0' := by
      intro hne' heq
      obtain ⟨d, t2, hdt⟩ := List.exists_cons_of_ne_nil hne'
      rw [head_eq_of_eq_cons hdt hne'] at heq
      subst heq
      rw [hdt] at hsh
      rw [hsh] at hnz
      have hz : noLeadingZeroId (['u','s','e','r',':'] ++ '0' :: t2) = false := rfl
      rw [hz] at hnz
      cases hnz
    have hrt : natToStr (parseDec (r.drop 5)) = r.drop 5 :=
      natToStr_parseDec _ hall hne hhead
    refine ⟨ParsedTarget.user (parseDec (r.drop 5))
      (['u','s','e','r',':'] ++ natToStr (parseDec (r.drop 5))), ?_, ?_⟩
    · unfold parseTarget
      simp only [hfix, htrim, hu, if_true]
    · simp only [ParsedTarget.route]
      rw [hrt, ← hsh]
  · obtain ⟨hsh, hds⟩ := matchGroupRoute_inv r hg
    have hu' : matchUserRoute r = false := by rw [hsh]; rfl
    have hfix : normalizeTarget r = r := by
      rw [hsh]
      exact normalizeTarget_fix_group _ hds
    have hall := digits512_all _ hds
    have hne := digits512_ne_nil _ hds
    have hhead : ∀ hne' : (r.drop 6) ≠ [], ¬(r.drop 6).head hne' = '0' := by
      intro hne' heq
      obtain ⟨d, t2, hdt⟩ := List.exists_cons_of_ne_nil hne'
      rw [head_eq_of_eq_cons hdt hne'] at heq
      subst heq
      rw [hdt] at hsh
      rw [hsh] at hnz
      have hz : noLeadingZeroId (['g','r','o','u','p',':'] ++ '0' :: t2) = false := rfl
      rw [hz] at hnz
      cases hnz
    have hrt : natToStr (parseDec (r.drop 6)) = r.drop 6 :=
      natToStr_parseDec _ hall hne hhead
    refine ⟨ParsedTarget.group (parseDec (r.drop 6))
      (['g','r','o','u','p',':'] ++ natToStr (parseDec (r.drop 6))), ?_, ?_⟩
    · unfold parseTarget
      simp only [hfix, htrim, hu', Bool.false_eq_true, if_false, hg, if_true]
    · simp only [ParsedTarget.route]
      rw [hrt, ← hsh]
  · obtain ⟨hsh, htail⟩ := matchGuildRoute_inv r hgu
    obtain ⟨p1, p2, hsplit, hp1ne, hp1safe, hp2ne⟩ := guildTail_inv _ htail
    have hu' : matchUserRoute r = false := by rw [hsh]; rfl
    have hg' : matchGroupRoute r = false := by rw [hsh]; rfl
    have hfix : normalizeTarget r = r := by
      rw [hsh]
      apply normalizeTarget_fix_guildish
      · rw [← hsh]; exact htrim
      · rw [← hsh]; exact hlow
    have htake : (r.drop 6).takeWhile (fun c => ¬c = ':') = p1 := by
      rw [hsplit]
      exact takeWhile_append_colon p1 p2 hp1safe
    have hdrop : ((r.drop 6).drop p1.length).drop 1 = p2 := by
      rw [hsplit, List.drop_left]
      rfl
    refine ⟨ParsedTarget.guild p1 p2
      ((['g','u','i','l','d',':'] ++ p1) ++ ':' :: p2), ?_, ?_⟩
    · unfold parseTarget
      simp only [hfix, htrim, hu', hg', Bool.false_eq_true, if_false, hgu, if_true,
        htake, hdrop]
    · simp only [ParsedTarget.route]
      rw [hsh, hsplit, List.append_assoc]

/-- Witness for the amended C7 theorem at a guild route. -/

theorem C7_parse_roundtrip_amended_witness :
    ∃ t, parseTarget (normalizeTarget (s2l "guild:a_b:c-9")) = some t
      ∧ ParsedTarget.route t = s2l "guild:a_b:c-9" :=
  C7_parse_roundtrip_amended _ (by decide) (by decide) (by decide) (by decide)
